import Mathlib

/-!
Shallow embedding of the "Lil' Grid Lab" world simulation core
(src/world.py, src/things.py) for checking the natural-language
specification against the code.

Modelling conventions:
* Python floats are modelled by `ℚ` (exact arithmetic; the spec's floating
  tolerance ε is subsumed by exact equality).
* Positions are integer pairs `(x, y)`, matching the Python lists `[x, y]`
  (index 0 is x, used as the first numpy index everywhere in world.py).
* Python object references to agents are modelled by stable indices into an
  arena list `World.arena`; the mutable `self.agents` ranking list is the
  list of indices `World.order` (the spec's §9 design note suggests exactly
  this arena representation).
* numpy indexing is modelled faithfully: an integer index `i` into an axis
  of length `n` resolves to `i` when `0 ≤ i < n`, wraps to `i + n` when
  `-n ≤ i < 0`, and raises otherwise.  A raised `IndexError` aborts the
  current tick; fallible paths therefore return `Option`.
* Display-only state (names, aspect strings, the `action_icon`, the
  `occupation_map` of tile glyphs, `current_state` and `learn_result` of the
  opaque Mind collaborator) is omitted; colors/intensities are kept as
  naturals because `respawn` restores them.
* The opaque Mind strategies (`perception`/`action`/`learning`) are modelled
  as an oracle `policy : ℕ → World → Act` giving each agent's chosen action;
  the module-level RNG is an oracle `rnd : ℕ → ℕ × ℕ` of successive
  `random.randint` draws (spec §5: determinism is relative to these inputs).
-/

namespace LGL

/-- Grid positions as integer (x, y) pairs (Python lists `[x, y]`). -/
abbrev Pos : Type := ℤ × ℤ

/-- Recycling dynamics of agents (constants in things.py). -/
inductive Recycling where
  | NON_RECHARGEABLE
  | RECHARGEABLE
  | EVERLASTING
  | RESPAWNABLE
deriving DecidableEq

/-- The action types dispatched by `World.execute_action`.
Modelled from the spec: the module act.py defining the action table is not
under src/ (only world.py's uses of `act.NONE`, `act.MOVE`, `act.EAT` are);
spec §4.4 lists exactly the kinds REST (`NONE`), `MOVE` and `EAT`. -/
inductive ActionType where
  | NONE
  | MOVE
  | EAT
deriving DecidableEq

/-- An action as passed to `World.execute_action`: a type plus the
(dx, dy) argument vector. -/
abbrev Act : Type := ActionType × ℤ × ℤ

/-- Modelled from the spec: the per-kind `energy_ratio` table
`act.ACTIONS_DEF[...].energy_ratio` lives in the missing module act.py.
Spec §4.4 gives REST = 0 and MOVE = 1; the spec's worked example 2
(predator ends at `50+3-step_cost` after an EAT) forces the EAT move-cost
term `move_cost * energy_ratio(EAT)` to vanish, i.e. EAT = 0. -/
def specEnergyRatios : ActionType → ℚ
  | ActionType.NONE => 0
  | ActionType.MOVE => 1
  | ActionType.EAT => 0

/-- Modelled from the spec: `ui.DEAD_AGENT_COLOR_INTENSITY`, the "dead"
display marker referenced by things.py, is not defined in src/ui.py.  Its
concrete value is irrelevant to the claims; only that dying overwrites the
color/intensity pair (spec §4.3). -/
def DEAD_AGENT_COLOR_INTENSITY : ℕ × ℕ := (0, 0)

/-- A 3×3 touch map (numpy `np.zeros([3, 3])`). -/
abbrev TMap : Type := Fin 3 → Fin 3 → ℚ

/-- The all-zero touch map. -/
def tmZero : TMap := fun _ _ => 0

/-- Add `v` to the single cell `(i, j)` of a touch map
(`touch_map[i, j] += v`). -/
def tmBump (m : TMap) (i j : Fin 3) (v : ℚ) : TMap :=
  fun i' j' => if i' = i ∧ j' = j then m i' j' + v else m i' j'

/-- numpy indexing into an axis of length 3 (the touch maps): integer
index `i` resolves when `-3 ≤ i < 3` (negatives wrap), otherwise raises. -/
def npIdx3 (i : ℤ) : Option (Fin 3) :=
  if h : 0 ≤ i ∧ i < 3 then some ⟨i.toNat, by omega⟩
  else if h2 : -3 ≤ i ∧ i < 0 then some ⟨(i + 3).toNat, by omega⟩
  else none

/-- numpy indexing into an axis of length `n` (the world grids):
index `i` resolves to a canonical coordinate in `[0, n)`, wrapping
negatives, and raises outside `[-n, n)`. -/
def npIdxN (n : ℕ) (i : ℤ) : Option ℤ :=
  if 0 ≤ i ∧ i < (n : ℤ) then some i
  else if -(n : ℤ) ≤ i ∧ i < 0 then some (i + n)
  else none

/-- The mutable state of a things.py `Agent`. -/
structure Agent where
  energy : ℚ
  max_energy : ℚ
  bite_power : ℚ
  step_cost : ℚ
  move_cost : ℚ
  recycling : Recycling
  position : Pos
  color : ℕ
  intensity : ℕ
  original_color : ℕ
  original_intensity : ℕ
  steps : ℕ
  current_energy_delta : ℚ
  negative_touch_map : TMap
  positive_touch_map : TMap
  chosen_action : Act
  chosen_action_success : Bool

instance : Inhabited Agent where
  default :=
    { energy := 0, max_energy := 0, bite_power := 0, step_cost := 0
      move_cost := 0, recycling := Recycling.NON_RECHARGEABLE
      position := (0, 0), color := 0, intensity := 0, original_color := 0
      original_intensity := 0, steps := 0, current_energy_delta := 0
      negative_touch_map := tmZero, positive_touch_map := tmZero
      chosen_action := (ActionType.NONE, 0, 0), chosen_action_success := true }

/-- Modelled from the spec: `act.VOID_ACTION` (the reset value of
`chosen_action` in things.py `initialize_state`) lives in the missing
module act.py; the spec's default strategy is "always REST" (§6). -/
def VOID_ACTION : Act := (ActionType.NONE, 0, 0)

/-- Modelled from the spec: `Agent.is_alive` is called by world.py but not
defined in src/things.py; spec §4.5 step 2 skips "any agent with
`energy <= 0`" and §3 counts active agents as those "with some energy". -/
def Agent.is_alive (a : Agent) : Prop := 0 < a.energy

instance (a : Agent) : Decidable a.is_alive := by
  unfold Agent.is_alive; infer_instance

/-- things.py `Agent.update_energy`: clamp the energy into
`[0, max_energy]` (EVERLASTING agents ignore the delta), accumulate the
actual delta into `current_energy_delta` and into the touch map cell
addressed by the source position, mark the agent dead if drained.
Returns `none` when the numpy touch-map write raises (source more than
one 3-wrap away), mirroring the `IndexError` that aborts the tick. -/
def Agent.update_energy (a : Agent) (energy_delta : ℚ)
    (delta_source_position : Option Pos) : Option (Agent × ℚ) :=
  if a.recycling = Recycling.EVERLASTING then
    some ({ a with current_energy_delta := 0 }, energy_delta)
  else
    let prev_energy := a.energy
    let new_energy := max (min (a.energy + energy_delta) a.max_energy) 0
    let energy_used := new_energy - prev_energy
    let src := delta_source_position.getD a.position
    match npIdx3 (1 + src.1 - a.position.1), npIdx3 (1 + src.2 - a.position.2) with
    | some i, some j =>
      let a1 : Agent :=
        if energy_used < 0 then
          { a with energy := new_energy,
                   current_energy_delta := a.current_energy_delta + energy_used,
                   negative_touch_map := tmBump a.negative_touch_map i j energy_used }
        else
          { a with energy := new_energy,
                   current_energy_delta := a.current_energy_delta + energy_used,
                   positive_touch_map := tmBump a.positive_touch_map i j energy_used }
      let a2 : Agent :=
        if new_energy ≤ 0 then
          { a1 with color := DEAD_AGENT_COLOR_INTENSITY.1,
                    intensity := DEAD_AGENT_COLOR_INTENSITY.2 }
        else a1
      some (a2, energy_used)
    | _, _ => none

/-- things.py `Agent.respawn`: back to `max_energy`, restore the original
look, re-run `initialize_state` (which zeroes the touch maps, the step
counter and the per-tick action state).  Returns the new agent and the
actual energy delta. -/
def Agent.respawn (a : Agent) : Agent × ℚ :=
  let prev_energy := a.energy
  let new_energy := a.max_energy
  ({ a with energy := new_energy,
            color := a.original_color,
            intensity := a.original_intensity,
            steps := 0,
            current_energy_delta := 0,
            negative_touch_map := tmZero,
            positive_touch_map := tmZero,
            chosen_action := VOID_ACTION,
            chosen_action_success := true },
   new_energy - prev_energy)

/-- things.py `Agent.pre_step`: reset the per-step net energy delta. -/
def Agent.agent_pre_step (a : Agent) : Agent :=
  { a with current_energy_delta := 0 }

/-- things.py `Agent.update_after_action`: clear both touch maps (the
action-icon display update is omitted). -/
def Agent.update_after_action (a : Agent) : Agent :=
  { a with negative_touch_map := tmZero, positive_touch_map := tmZero }

/-- things.py `Agent.post_step`: the learning hook is opaque (spec §6) and
only stores `learn_result`, which is omitted; the step counter advances. -/
def Agent.agent_post_step (a : Agent) : Agent :=
  { a with steps := a.steps + 1 }

/-- Thing references held by the grid `World.things`: an agent (by arena
index) or a block.  Tiles live on the separate `ground` layer and never
occupy this grid. -/
inductive Occ where
  | agent (i : ℕ)
  | block (b : ℕ)
deriving DecidableEq

/-- The world state (world.py `World`), restricted to the simulation core:
grid layers, the agent arena plus ranking order, step counters and pause
bookkeeping. -/
structure World where
  width : ℕ
  height : ℕ
  arena : List Agent
  order : List ℕ
  things : Pos → Option Occ
  energy_map : Pos → ℚ
  occupation_bitmap : Pos → ℕ
  total_energy : ℚ
  current_step : ℕ
  pause_step : Option ℕ
  paused : Bool
  step_by_step : Bool
  n_active_agents : ℕ

/-- Dereference an arena index (a Python object reference). -/
def World.agentAt (W : World) (i : ℕ) : Agent := W.arena.getD i default

/-- Whether a position lies within the world's limits. -/
def inBounds (W : World) (p : Pos) : Prop :=
  0 ≤ p.1 ∧ p.1 ≤ (W.width : ℤ) - 1 ∧ 0 ≤ p.2 ∧ p.2 ≤ (W.height : ℤ) - 1

instance (W : World) (p : Pos) : Decidable (inBounds W p) := by
  unfold inBounds; infer_instance

/-- world.py `tile_is_empty`: in bounds and unoccupied. -/
def World.tile_is_empty (W : World) (p : Pos) : Bool :=
  if inBounds W p then (W.things p).isNone else false

/-- The row-major successor with wraparound used by `find_free_tile`:
`x = (x+1) % width`, incrementing `y % height` when x wraps to 0. -/
def nextTile (w h : ℕ) (p : ℕ × ℕ) : ℕ × ℕ :=
  let x := (p.1 + 1) % w
  (x, if x = 0 then (p.2 + 1) % h else p.2)

/-- The scan loop of world.py `find_free_tile`: probe the successor tile,
succeed on an empty one, fail when the scan returns to the start.  The
loop is bounded by a probe budget (`fuel`); `find_free_tile` supplies
`width * height`, which the C9 theorem shows always suffices. -/
def scanFree (W : World) (start : ℕ × ℕ) : ℕ → ℕ × ℕ → Option Pos
  | 0, _ => none
  | fuel + 1, p =>
    let q := nextTile W.width W.height p
    if W.tile_is_empty ((q.1 : ℤ), (q.2 : ℤ)) then some ((q.1 : ℤ), (q.2 : ℤ))
    else if q = start then none
    else scanFree W start fuel q

/-- world.py `find_free_tile`: try one random tile (`draw`, a pair of
`random.randint(0, width/height - 1)` draws, modelled as arbitrary
naturals reduced into range), then scan with wraparound.  `none` is the
`(RANDOM_POSITION, False)` failure result. -/
def World.find_free_tile (W : World) (draw : ℕ × ℕ) : Option Pos :=
  let start : ℕ × ℕ := (draw.1 % W.width, draw.2 % W.height)
  if W.tile_is_empty ((start.1 : ℤ), (start.2 : ℤ)) then
    some ((start.1 : ℤ), (start.2 : ℤ))
  else scanFree W start (W.width * W.height) start

/-- The success path of world.py `place_at` for an agent already in the
world: clear the old tile (thing reference, energy mirror, bitmap), then
write the agent into the new tile. -/
def World.relocateAgent (W : World) (i : ℕ) (p : Pos) : World :=
  let a := W.agentAt i
  let old := a.position
  let things1 : Pos → Option Occ := fun q => if q = old then none else W.things q
  let em1 : Pos → ℚ := fun q => if q = old then 0 else W.energy_map q
  let bm1 : Pos → ℕ := fun q => if q = old then 1 else W.occupation_bitmap q
  { W with
    arena := W.arena.set i { a with position := p },
    things := fun q => if q = p then some (Occ.agent i) else things1 q,
    energy_map := fun q => if q = p then a.energy else em1 q,
    occupation_bitmap := fun q => if q = p then 0 else bm1 q }

/-- world.py `place_at` specialised to agents already placed in the world
(the only callers inside `step` are MOVE and the respawn relocation; the
construction-time placement of fresh things is outside the claims).
`position = none` is `things.RANDOM_POSITION`.  Returns the updated world
and the success flag.  Note the final fallback of the source: a failed
random relocation of an already-placed thing leaves it where it was and
reports success. -/
def World.place_at (W : World) (i : ℕ) (position : Option Pos)
    (relocate : Bool) (draw : ℕ × ℕ) : World × Bool :=
  match position with
  | none =>
    match W.find_free_tile draw with
    | some p => (W.relocateAgent i p, true)
    | none => (W, true)
  | some p =>
    if W.tile_is_empty p ∨ p = (W.agentAt i).position then
      (W.relocateAgent i p, true)
    else if relocate then
      match W.find_free_tile draw with
      | some q => (W.relocateAgent i q, true)
      | none => (W, true)
    else (W, false)

/-- world.py `update_agent_energy`: apply the agent's energy update (or its
respawn when `energy_delta` is `none`), then mirror the agent's energy into
`energy_map` at its position.  Returns the world and the actual delta. -/
def World.update_agent_energy (W : World) (i : ℕ) (energy_delta : Option ℚ)
    (energy_source_position : Option Pos) : Option (World × ℚ) :=
  let a := W.agentAt i
  let res : Option (Agent × ℚ) :=
    match energy_delta with
    | some d => a.update_energy d energy_source_position
    | none => some a.respawn
  res.map fun r =>
    ({ W with
        arena := W.arena.set i r.1,
        energy_map := fun q => if q = r.1.position then r.1.energy else W.energy_map q },
     r.2)

/-- Record the success flag on the acting agent
(`agent.chosen_action_success = success`). -/
def World.setSuccess (W : World) (i : ℕ) (s : Bool) : World :=
  { W with arena := W.arena.set i { W.agentAt i with chosen_action_success := s } }

/-- numpy read of the `things` grid, `self.things[x, y]`: wraps negative
indices, raises (`none`) outside `[-width, width) × [-height, height)`. -/
def World.npRead (W : World) (x y : ℤ) : Option (Option Occ) :=
  match npIdxN W.width x, npIdxN W.height y with
  | some x', some y' => some (W.things (x', y'))
  | _, _ => none

/-- world.py `execute_action`: the affordability gate, then dispatch on the
action type.  `er` is the `energy_ratio` table of the external act.py
(spec §4.4: an injected cost multiplier).  `none` models an uncaught
`IndexError` from numpy indexing, which aborts the tick. -/
def World.execute_action (er : ActionType → ℚ) (W : World) (i : ℕ)
    (action : Act) : Option World :=
  let a := W.agentAt i
  let action_delta := a.move_cost * er action.1
  if a.energy + action_delta + a.step_cost < 0 then
    -- Not enough energy for the move and the step cost.
    (W.update_agent_energy i (some ((0 : ℚ) + a.step_cost)) none).map
      fun r => r.1.setSuccess i false
  else
    match action.1 with
    | ActionType.NONE =>
      (W.update_agent_energy i (some (action_delta + a.step_cost)) none).map
        fun r => r.1.setSuccess i true
    | ActionType.MOVE =>
      let dest : Pos := (a.position.1 + action.2.1, a.position.2 + action.2.2)
      let pr := W.place_at i (some dest) false (0, 0)
      let success := pr.2
      let ad := if success then action_delta else 0
      ((pr.1.update_agent_energy i (some (ad + a.step_cost)) none).map
        fun r => r.1.setSuccess i success)
    | ActionType.EAT =>
      (W.update_agent_energy i (some a.step_cost) none).bind fun r1 =>
        let W1 := r1.1
        let a1 := W1.agentAt i
        (W1.npRead (a1.position.1 + action.2.1) (a1.position.2 + action.2.2)).bind
          fun prey =>
            match prey with
            | some (Occ.agent j) =>
              if j ∈ W1.order then
                let max_possible_bite := min a1.bite_power (a1.max_energy - a1.energy)
                (W1.update_agent_energy j (some (-max_possible_bite))
                    (some a1.position)).bind fun r2 =>
                  let W2 := r2.1
                  let energy_taken := r2.2
                  let ad := action_delta + -energy_taken
                  let success := decide (0 < ad)
                  (W2.update_agent_energy i (some ad)
                      (some (W2.agentAt j).position)).map fun r3 =>
                    r3.1.setSuccess i success
              else some (W1.setSuccess i false)
            | _ => some (W1.setSuccess i false)

/-- Store the action chosen by the Mind on the agent
(things.py `choose_action`; the perception/selection strategies are the
opaque oracle `policy`). -/
def World.setChosen (W : World) (i : ℕ) (act : Act) : World :=
  { W with arena := W.arena.set i { W.agentAt i with chosen_action := act } }

/-- Replace agent `i` by `f` applied to it (helper for the per-agent
bookkeeping calls of world.py). -/
def World.mapAgent (W : World) (i : ℕ) (f : Agent → Agent) : World :=
  { W with arena := W.arena.set i (f (W.agentAt i)) }

/-- world.py `pre_step`: reset every agent's step variables. -/
def World.pre_step (W : World) : World :=
  W.order.foldl (fun Wc i => Wc.mapAgent i Agent.agent_pre_step) W

/-- The act phase of world.py `step`: iterate the ranking, skipping agents
that are not alive at their turn (the Python `filter` is lazy, so deaths
earlier in the same tick are seen); for each live agent, ask the Mind for
an action, execute it, and run `update_after_action`. -/
def actPhase (er : ActionType → ℚ) (policy : ℕ → World → Act) :
    List ℕ → World → Option World
  | [], W => some W
  | i :: rest, W =>
    if (W.agentAt i).is_alive then
      let act := policy i W
      let Wa := W.setChosen i act
      (Wa.execute_action er i act).bind fun W1 =>
        actPhase er policy rest (W1.mapAgent i Agent.update_after_action)
    else actPhase er policy rest W

/-- The per-agent pass of world.py `post_step`: respawn-and-relocate dead
RESPAWNABLE agents (consuming one RNG draw), run the regular
`Agent.post_step` on everyone else; count the survivors.  The state is
(world, next RNG draw index, active count). -/
def postLoop (rnd : ℕ → ℕ × ℕ) : List ℕ → World × ℕ × ℕ → Option (World × ℕ × ℕ)
  | [], s => some s
  | i :: rest, (W, k, cnt) =>
    let a := W.agentAt i
    if a.energy ≤ 0 ∧ a.recycling = Recycling.RESPAWNABLE then
      (W.update_agent_energy i none none).bind fun r =>
        let pr := r.1.place_at i none false (rnd k)
        let W2 := pr.1
        let cnt' := if (W2.agentAt i).is_alive then cnt + 1 else cnt
        postLoop rnd rest (W2, k + 1, cnt')
    else
      let W1 := W.mapAgent i Agent.agent_post_step
      let cnt' := if (W1.agentAt i).is_alive then cnt + 1 else cnt
      postLoop rnd rest (W1, k, cnt')

/-- Stable insertion of `i` into a list already sorted by strictly earlier
passes of `sortDesc`: `i` skips over strictly greater energies and lands
in front of the first index of less-or-equal energy — ahead of
later-listed ties, matching Python's stable
`list.sort(key=energy, reverse=True)`. -/
def insertDesc (W : World) (i : ℕ) : List ℕ → List ℕ
  | [] => [i]
  | j :: rest =>
    if (W.agentAt i).energy < (W.agentAt j).energy then j :: insertDesc W i rest
    else i :: j :: rest

/-- Stable sort of the ranking by energy, descending (world.py
`self.agents.sort(key=lambda x: x.energy, reverse=True)`). -/
def sortDesc (W : World) : List ℕ → List ℕ
  | [] => []
  | i :: rest => insertDesc W i (sortDesc W rest)

/-- The total of the grid's energy map over all tiles
(`self.energy_map.sum()`). -/
def gridTotal (W : World) : ℚ :=
  ∑ x ∈ Finset.range W.width, ∑ y ∈ Finset.range W.height,
    W.energy_map ((x : ℤ), (y : ℤ))

/-- The total energy over the world's agent list
(`sum(a.energy for a in self.agents)`). -/
def agentTotal (W : World) : ℚ :=
  (W.order.map fun i => (W.agentAt i).energy).sum

/-- world.py `post_step`: the per-agent pass, then the world bookkeeping:
refresh `total_energy` from the map (the energy assertion of the source at
this point is the proposition `gridTotal = agentTotal`, settled by the C1
theorem rather than modelled as an abort), re-sort the ranking, advance
the step counter and handle the configured pause step. -/
def World.post_step (rnd : ℕ → ℕ × ℕ) (W : World) : Option World :=
  (postLoop rnd W.order (W, 0, 0)).map fun s =>
    let W1 := s.1
    let W2 := { W1 with
      total_energy := gridTotal W1,
      order := sortDesc W1 W1.order,
      current_step := W1.current_step + 1,
      n_active_agents := s.2.2 }
    if W2.pause_step = some W2.current_step then
      { W2 with paused := true, step_by_step := false }
    else W2

/-- world.py `step`: pre-step reset, the ordered act phase over the
ranking as it stands at the start of the tick, then post-step. -/
def World.step (er : ActionType → ℚ) (policy : ℕ → World → Act)
    (rnd : ℕ → ℕ × ℕ) (W : World) : Option World :=
  let W0 := W.pre_step
  (actPhase er policy W0.order W0).bind fun W1 => W1.post_step rnd

/-- The energy a grid cell content mirrors: an agent's energy, or 0 for
empty cells and blocks. -/
def energyOfOcc (W : World) : Option Occ → ℚ
  | some (Occ.agent i) => (W.agentAt i).energy
  | _ => 0

/-- Well-formedness of a world, as produced by the world.py constructor:
positive dimensions; the ranking enumerates the arena without duplicates;
every agent sits on an in-bounds tile that references it back; grid agent
references are consistent; the energy map mirrors the agents' energies
(0 on empty and block tiles); nothing lives out of bounds; energies are
clamped into `[0, max_energy]`; cost signs follow spec §3
(`step_cost ≤ 0`, `move_cost ≤ 0`, `bite_power ≥ 0`). -/
structure Wf (W : World) : Prop where
  width_pos : 0 < W.width
  height_pos : 0 < W.height
  order_iff : ∀ i, i ∈ W.order ↔ i < W.arena.length
  order_nodup : W.order.Nodup
  agent_placed : ∀ i, i < W.arena.length →
    inBounds W (W.agentAt i).position ∧
    W.things (W.agentAt i).position = some (Occ.agent i)
  grid_agents : ∀ p i, W.things p = some (Occ.agent i) →
    i < W.arena.length ∧ (W.agentAt i).position = p
  energy_mirror : ∀ p, W.energy_map p = energyOfOcc W (W.things p)
  grid_bounded : ∀ p, ¬ inBounds W p → W.things p = none
  energy_bounds : ∀ i, i < W.arena.length →
    0 ≤ (W.agentAt i).energy ∧ (W.agentAt i).energy ≤ (W.agentAt i).max_energy
  cost_signs : ∀ i, i < W.arena.length →
    (W.agentAt i).step_cost ≤ 0 ∧ (W.agentAt i).move_cost ≤ 0 ∧
    0 ≤ (W.agentAt i).bite_power

/-- A fresh agent from its energy settings and initial position
(construction-time fields that the claims do not exercise are fixed). -/
def mkAgent (e M bp sc mc : ℚ) (rec : Recycling) (p : Pos) : Agent :=
  { energy := e, max_energy := M, bite_power := bp, step_cost := sc,
    move_cost := mc, recycling := rec, position := p, color := 3,
    intensity := 1, original_color := 3, original_intensity := 1,
    steps := 0, current_energy_delta := 0, negative_touch_map := tmZero,
    positive_touch_map := tmZero, chosen_action := VOID_ACTION,
    chosen_action_success := true }

/-- The things grid determined by a list of placed agents and a list of
block positions (as the constructor's placement loop leaves it). -/
def mkThings (ags : List Agent) (blockPs : List Pos) : Pos → Option Occ :=
  fun p =>
    match (List.range ags.length).findSome? fun i =>
        if (ags.getD i default).position = p then some (Occ.agent i) else none with
    | some o => some o
    | none => if p ∈ blockPs then some (Occ.block 0) else none

/-- A world holding the given agents (arena order = ranking order) and
blocks, with the energy map mirroring the agents. -/
def mkWorld (w h : ℕ) (ags : List Agent) (blockPs : List Pos) : World :=
  { width := w, height := h, arena := ags, order := List.range ags.length,
    things := mkThings ags blockPs,
    energy_map := fun p =>
      match mkThings ags blockPs p with
      | some (Occ.agent i) => (ags.getD i default).energy
      | _ => 0,
    occupation_bitmap := fun p => if (mkThings ags blockPs p).isSome then 0 else 1,
    total_energy := 0, current_step := 0, pause_step := none,
    paused := false, step_by_step := false, n_active_agents := 0 }

/-! ### Concrete instances used by witnesses and counterexamples -/

/-- The agent produced by a successful `update_energy` on a non-EVERLASTING
agent whose touch-map write resolved to cell `(i, j)` (see
`update_energy_eq`). -/
def updatedAgentCore (a : Agent) (d : ℚ) (i j : Fin 3) : Agent :=
  if max (min (a.energy + d) a.max_energy) 0 - a.energy < 0 then
    { a with energy := max (min (a.energy + d) a.max_energy) 0,
             current_energy_delta := a.current_energy_delta +
               (max (min (a.energy + d) a.max_energy) 0 - a.energy),
             negative_touch_map := tmBump a.negative_touch_map i j
               (max (min (a.energy + d) a.max_energy) 0 - a.energy) }
  else
    { a with energy := max (min (a.energy + d) a.max_energy) 0,
             current_energy_delta := a.current_energy_delta +
               (max (min (a.energy + d) a.max_energy) 0 - a.energy),
             positive_touch_map := tmBump a.positive_touch_map i j
               (max (min (a.energy + d) a.max_energy) 0 - a.energy) }

def updatedAgent (a : Agent) (d : ℚ) (i j : Fin 3) : Agent :=
  if max (min (a.energy + d) a.max_energy) 0 ≤ 0 then
    { updatedAgentCore a d i j with
        color := DEAD_AGENT_COLOR_INTENSITY.1,
        intensity := DEAD_AGENT_COLOR_INTENSITY.2 }
  else updatedAgentCore a d i j

/-- A RESPAWNABLE agent that has died after 5 lived steps (for C7). -/
def c7Agent : Agent :=
  { mkAgent 0 10 1 (-1) (-1) Recycling.RESPAWNABLE (0, 0) with
      steps := 5, color := 0, intensity := 0 }

/-- A plain agent at the origin receiving energy deltas (for C8). -/
def c8Agent : Agent := mkAgent 5 10 1 (-1) (-1) Recycling.NON_RECHARGEABLE (0, 0)

/-- A 1×1 world with one EVERLASTING agent that cannot afford a MOVE
(for the C3 counterexample). -/
def c3W : World :=
  mkWorld 1 1 [mkAgent 5 10 1 (-2) (-10) Recycling.EVERLASTING (0, 0)] []

/-- A 1×1 world with one ordinary agent that cannot afford a MOVE
(for the C3 witness). -/
def c3Wit : World :=
  mkWorld 1 1 [mkAgent 1 10 1 (-2) (-3) Recycling.NON_RECHARGEABLE (0, 0)] []

/-- A 1×1 world whose living agent cannot even cover `step_cost`
(energy 1, step_cost −2), for C5: the gate rejects its REST. -/
def c5WGate : World :=
  mkWorld 1 1 [mkAgent 1 10 1 (-2) (-1) Recycling.NON_RECHARGEABLE (0, 0)] []

/-- A 1×1 world with an EVERLASTING agent resting (for C5: it is not
charged `action_delta + step_cost`). -/
def c5WEv : World :=
  mkWorld 1 1 [mkAgent 5 10 1 (-1) (-1) Recycling.EVERLASTING (0, 0)] []

/-- The energy an agent holds after the energy economy applies delta `d`:
EVERLASTING agents keep their energy, everyone else is clamped into
`[0, max_energy]` (things.py `update_energy`). -/
def chargeVal (a : Agent) (d : ℚ) : ℚ :=
  if a.recycling = Recycling.EVERLASTING then a.energy
  else max (min (a.energy + d) a.max_energy) 0

/-- The delta `update_energy` reports: the nominal delta for EVERLASTING
agents, the actual post-clamp difference otherwise. -/
def usedVal (a : Agent) (d : ℚ) : ℚ :=
  if a.recycling = Recycling.EVERLASTING then d
  else max (min (a.energy + d) a.max_energy) 0 - a.energy

/-- A 1×1 world whose agent issues MOVE(0,0) (for the C4 counterexample:
the destination is its own occupied tile, yet the move succeeds). -/
def c4W0 : World :=
  mkWorld 1 1 [mkAgent 10 10 1 (-1) (-2) Recycling.NON_RECHARGEABLE (0, 0)] []

/-- A 2×1 world with an EVERLASTING agent moving into an empty tile (for
the C4 counterexample: it is not charged `action_delta + step_cost`). -/
def c4WEv : World :=
  mkWorld 2 1 [mkAgent 5 10 1 (-1) (-2) Recycling.EVERLASTING (0, 0)] []

/-- The spec's worked MOVE example: 3×3 grid, one agent at (1,1),
energy 10/10, step_cost −1, move_cost −2 (for the C4 witness). -/
def c4Wit : World :=
  mkWorld 3 3 [mkAgent 10 10 1 (-1) (-2) Recycling.NON_RECHARGEABLE (1, 1)] []

/-- A 2×1 world: an agent next to a block, to EAT at (for C6). -/
def c6WBlock : World :=
  mkWorld 2 1 [mkAgent 10 10 2 (-1) (-1) Recycling.NON_RECHARGEABLE (0, 0)] [(1, 0)]

/-- A 2×1 world: a predator next to a dead (energy 0) agent (for C6:
zero transferable energy). -/
def c6WDead : World :=
  mkWorld 2 1 [mkAgent 10 10 2 (-1) (-1) Recycling.NON_RECHARGEABLE (0, 0),
               mkAgent 0 10 1 (-1) (-1) Recycling.NON_RECHARGEABLE (1, 0)] []

/-- A 2×1 world: a predator (50/100, bite 5, step −1) next to a dead
EVERLASTING prey (energy 0), for the C6 counterexample. -/
def c6WEvDead : World :=
  mkWorld 2 1 [mkAgent 50 100 5 (-1) (-1) Recycling.NON_RECHARGEABLE (0, 0),
               mkAgent 0 10 1 (-1) (-1) Recycling.EVERLASTING (1, 0)] []

/-- A 2×1 world: a predator (50/100, bite 5, step −1, move −2) next to an
EVERLASTING prey with energy 3 (for the C2 counterexample). -/
def c2WEv : World :=
  mkWorld 2 1 [mkAgent 50 100 5 (-1) (-2) Recycling.NON_RECHARGEABLE (0, 0),
               mkAgent 3 10 1 (-1) (-1) Recycling.EVERLASTING (1, 0)] []

/-- The spec's worked EAT example: predator 50/100 with bite 5 and
step_cost −1 next to an ordinary prey with energy 3 (for the C2
witness). -/
def c2Wit : World :=
  mkWorld 2 1 [mkAgent 50 100 5 (-1) (-2) Recycling.NON_RECHARGEABLE (0, 0),
               mkAgent 3 10 1 (-1) (-1) Recycling.NON_RECHARGEABLE (1, 0)] []

/-- A 2×1 world: predator at (0,0), prey at (1,0), for the C10 witness —
EAT(-1,0) wraps to the opposite edge, EAT(1,0) from (1,0) raises. -/
def c10W : World :=
  mkWorld 2 1 [mkAgent 50 100 5 (-1) (-2) Recycling.NON_RECHARGEABLE (0, 0),
               mkAgent 3 10 1 (-1) (-1) Recycling.NON_RECHARGEABLE (1, 0)] []

/-- Row-major encoding of a tile into `[0, width*height)`:
`(x, y) ↦ y * width + x` (the order the wraparound scan follows). -/
def encT (w : ℕ) (p : ℕ × ℕ) : ℕ := p.2 * w + p.1

/-- Inverse of `encT`. -/
def decT (w : ℕ) (t : ℕ) : ℕ × ℕ := (t % w, t / w)

/-- A fully occupied 2×2 world (the spec's example 3, for the C9
witness). -/
def c9Full : World := mkWorld 2 2 [] [(0, 0), (1, 0), (0, 1), (1, 1)]

/-- The grid's tiles as a finite set of positions (the index set of
`self.energy_map.sum()`). -/
def tiles (W : World) : Finset Pos :=
  (Finset.range W.width ×ˢ Finset.range W.height).image
    fun q => ((q.1 : ℤ), (q.2 : ℤ))

/-- Bookkeeping every in-tick mutation preserves until the final re-sort:
the arena length, the ranking and the grid dimensions. -/
def sameShape (W2 W : World) : Prop :=
  W2.arena.length = W.arena.length ∧ W2.order = W.order ∧
  W2.width = W.width ∧ W2.height = W.height

/-- The agent of the 1×1 conservation witness world (for C1). -/
def c1Agent : Agent := mkAgent 4 10 1 (-1) (-1) Recycling.NON_RECHARGEABLE (0, 0)

/-- A well-formed 1×1 world holding the single agent `c1Agent` on its only
tile, energy map mirroring it (for the C1 witness). -/
def c1W : World :=
  { width := 1, height := 1, arena := [c1Agent], order := [0],
    things := fun p => if p = ((0 : ℤ), (0 : ℤ)) then some (Occ.agent 0) else none,
    energy_map := fun p => if p = ((0 : ℤ), (0 : ℤ)) then 4 else 0,
    occupation_bitmap := fun p => if p = ((0 : ℤ), (0 : ℤ)) then 0 else 1,
    total_energy := 4, current_step := 0, pause_step := none,
    paused := false, step_by_step := false, n_active_agents := 1 }

/-- The always-REST Mind oracle of the C1 witness. -/
def c1Policy : ℕ → World → Act := fun _ _ => VOID_ACTION

/-- The (never consulted) RNG oracle of the C1 witness. -/
def c1Rnd : ℕ → ℕ × ℕ := fun _ => (0, 0)

/-- The world after one completed step of the C1 witness world. -/
def c1Wr : World := (c1W.step specEnergyRatios c1Policy c1Rnd).getD c1W

-- MARKER-DEFS-END

/-! ### Infrastructure lemmas -/

/-- Setting index `i` and reading it back. -/
theorem getD_set_self (l : List Agent) (i : ℕ) (a : Agent) (h : i < l.length) :
    (l.set i a).getD i default = a := by
  simp [List.getD_eq_getElem?_getD, List.getElem?_set_self, h]

/-- Setting index `i` leaves other reads unchanged. -/
theorem getD_set_ne (l : List Agent) (i j : ℕ) (a : Agent) (h : i ≠ j) :
    (l.set i a).getD j default = l.getD j default := by
  simp [List.getD_eq_getElem?_getD, List.getElem?_set_ne h]

/-- `npIdx3` at the touch-map centre. -/
theorem npIdx3_one : npIdx3 1 = some 1 := by decide

/-- The touch-map index of a source equal to the agent's own position. -/
theorem npIdx3_self (x : ℤ) : npIdx3 (1 + x - x) = some 1 := by
  rw [show (1 : ℤ) + x - x = 1 by ring]; exact npIdx3_one

/-- `update_energy` on an EVERLASTING agent: no state change beyond
resetting `current_energy_delta`; the nominal delta is reported. -/
theorem update_energy_everlasting (a : Agent) (d : ℚ) (src : Option Pos)
    (hrec : a.recycling = Recycling.EVERLASTING) :
    a.update_energy d src = some ({ a with current_energy_delta := 0 }, d) := by
  unfold Agent.update_energy; rw [if_pos hrec]

/-- `update_energy` on a non-EVERLASTING agent whose touch indices
resolve: the clamped update, reporting the actual (post-clamp) delta. -/
theorem update_energy_eq (a : Agent) (d : ℚ) (src : Option Pos)
    (hrec : a.recycling ≠ Recycling.EVERLASTING) (i j : Fin 3)
    (hi : npIdx3 (1 + (src.getD a.position).1 - a.position.1) = some i)
    (hj : npIdx3 (1 + (src.getD a.position).2 - a.position.2) = some j) :
    a.update_energy d src =
      some (updatedAgent a d i j,
        max (min (a.energy + d) a.max_energy) 0 - a.energy) := by
  unfold Agent.update_energy updatedAgent updatedAgentCore
  rw [if_neg hrec]
  simp only [hi, hj]

/-- Fields of `updatedAgent`: everything but energy, the tick delta and
the touch maps is untouched; energy is the clamped value. -/
theorem updatedAgentCore_fields (a : Agent) (d : ℚ) (i j : Fin 3) :
    (updatedAgentCore a d i j).position = a.position ∧
    (updatedAgentCore a d i j).max_energy = a.max_energy ∧
    (updatedAgentCore a d i j).bite_power = a.bite_power ∧
    (updatedAgentCore a d i j).step_cost = a.step_cost ∧
    (updatedAgentCore a d i j).move_cost = a.move_cost ∧
    (updatedAgentCore a d i j).recycling = a.recycling ∧
    (updatedAgentCore a d i j).steps = a.steps ∧
    (updatedAgentCore a d i j).chosen_action = a.chosen_action ∧
    (updatedAgentCore a d i j).chosen_action_success = a.chosen_action_success ∧
    (updatedAgentCore a d i j).energy = max (min (a.energy + d) a.max_energy) 0 := by
  unfold updatedAgentCore
  split <;> simp

theorem updatedAgent_fields (a : Agent) (d : ℚ) (i j : Fin 3) :
    (updatedAgent a d i j).position = a.position ∧
    (updatedAgent a d i j).max_energy = a.max_energy ∧
    (updatedAgent a d i j).bite_power = a.bite_power ∧
    (updatedAgent a d i j).step_cost = a.step_cost ∧
    (updatedAgent a d i j).move_cost = a.move_cost ∧
    (updatedAgent a d i j).recycling = a.recycling ∧
    (updatedAgent a d i j).steps = a.steps ∧
    (updatedAgent a d i j).chosen_action = a.chosen_action ∧
    (updatedAgent a d i j).chosen_action_success = a.chosen_action_success ∧
    (updatedAgent a d i j).energy = max (min (a.energy + d) a.max_energy) 0 := by
  have h := updatedAgentCore_fields a d i j
  unfold updatedAgent
  split <;> simpa using h

/-- `update_agent_energy` with an explicit delta, unfolded through a
successful agent update. -/
theorem update_agent_energy_eq (W : World) (i : ℕ) (d : ℚ) (src : Option Pos)
    (a' : Agent) (u : ℚ) (h : (W.agentAt i).update_energy d src = some (a', u)) :
    W.update_agent_energy i (some d) src =
      some ({ W with arena := W.arena.set i a',
                     energy_map := fun q =>
                       if q = a'.position then a'.energy else W.energy_map q }, u) := by
  unfold World.update_agent_energy
  simp only [h]
  rfl

/-- `update_agent_energy` with `energy_delta = None` runs the respawn. -/
theorem update_agent_energy_respawn (W : World) (i : ℕ) :
    W.update_agent_energy i none none =
      some ({ W with arena := W.arena.set i (W.agentAt i).respawn.1,
                     energy_map := fun q =>
                       if q = (W.agentAt i).respawn.1.position
                       then (W.agentAt i).respawn.1.energy else W.energy_map q },
            (W.agentAt i).respawn.2) := rfl

/-- Touch maps of `updatedAgent` when the actual delta is negative. -/
theorem updatedAgent_touch_neg (a : Agent) (d : ℚ) (i j : Fin 3)
    (h : max (min (a.energy + d) a.max_energy) 0 - a.energy < 0) :
    (updatedAgent a d i j).negative_touch_map =
      tmBump a.negative_touch_map i j
        (max (min (a.energy + d) a.max_energy) 0 - a.energy) ∧
    (updatedAgent a d i j).positive_touch_map = a.positive_touch_map := by
  unfold updatedAgent updatedAgentCore
  rw [if_pos h]
  split <;> simp

/-- Touch maps of `updatedAgent` when the actual delta is nonnegative. -/
theorem updatedAgent_touch_nonneg (a : Agent) (d : ℚ) (i j : Fin 3)
    (h : 0 ≤ max (min (a.energy + d) a.max_energy) 0 - a.energy) :
    (updatedAgent a d i j).positive_touch_map =
      tmBump a.positive_touch_map i j
        (max (min (a.energy + d) a.max_energy) 0 - a.energy) ∧
    (updatedAgent a d i j).negative_touch_map = a.negative_touch_map := by
  unfold updatedAgent updatedAgentCore
  rw [if_neg (not_lt.mpr h)]
  split <;> simp

/-- Reading back the agent written by `setSuccess`. -/
theorem setSuccess_agentAt_self (W : World) (i : ℕ) (s : Bool)
    (h : i < W.arena.length) :
    (W.setSuccess i s).agentAt i =
      { W.agentAt i with chosen_action_success := s } :=
  getD_set_self _ _ _ h

/-- `setSuccess` only touches the arena entry. -/
theorem setSuccess_parts (W : World) (i : ℕ) (s : Bool) :
    (W.setSuccess i s).things = W.things ∧
    (W.setSuccess i s).energy_map = W.energy_map ∧
    (W.setSuccess i s).occupation_bitmap = W.occupation_bitmap ∧
    (W.setSuccess i s).order = W.order ∧
    (W.setSuccess i s).arena.length = W.arena.length ∧
    (∀ j, j ≠ i → (W.setSuccess i s).agentAt j = W.agentAt j) := by
  refine ⟨rfl, rfl, rfl, rfl, by simp [World.setSuccess], fun j hj => ?_⟩
  exact getD_set_ne _ _ _ _ (fun h => hj h.symm)

/-- The affordability-gate branch of `execute_action`. -/
theorem execute_action_gate (er : ActionType → ℚ) (W : World) (i : ℕ) (act : Act)
    (hgate : (W.agentAt i).energy + (W.agentAt i).move_cost * er act.1 +
      (W.agentAt i).step_cost < 0) :
    W.execute_action er i act =
      (W.update_agent_energy i (some ((0 : ℚ) + (W.agentAt i).step_cost)) none).map
        fun r => r.1.setSuccess i false := by
  unfold World.execute_action
  simp only [if_pos hgate]

/-- The REST branch of `execute_action`, once the gate passed. -/
theorem execute_action_rest (er : ActionType → ℚ) (W : World) (i : ℕ) (dx dy : ℤ)
    (hgate : ¬ ((W.agentAt i).energy + (W.agentAt i).move_cost * er ActionType.NONE +
      (W.agentAt i).step_cost < 0)) :
    W.execute_action er i (ActionType.NONE, dx, dy) =
      (W.update_agent_energy i
          (some ((W.agentAt i).move_cost * er ActionType.NONE + (W.agentAt i).step_cost))
          none).map
        fun r => r.1.setSuccess i true := by
  unfold World.execute_action
  simp only [if_neg hgate]

/-- The MOVE branch of `execute_action`, once the gate passed. -/
theorem execute_action_move (er : ActionType → ℚ) (W : World) (i : ℕ) (dx dy : ℤ)
    (hgate : ¬ ((W.agentAt i).energy + (W.agentAt i).move_cost * er ActionType.MOVE +
      (W.agentAt i).step_cost < 0)) :
    W.execute_action er i (ActionType.MOVE, dx, dy) =
      ((W.place_at i
          (some ((W.agentAt i).position.1 + dx, (W.agentAt i).position.2 + dy))
          false (0, 0)).1.update_agent_energy i
          (some ((if (W.place_at i
              (some ((W.agentAt i).position.1 + dx, (W.agentAt i).position.2 + dy))
              false (0, 0)).2 then (W.agentAt i).move_cost * er ActionType.MOVE else 0) +
            (W.agentAt i).step_cost)) none).map
        fun r => r.1.setSuccess i
          (W.place_at i
            (some ((W.agentAt i).position.1 + dx, (W.agentAt i).position.2 + dy))
            false (0, 0)).2 := by
  unfold World.execute_action
  simp only [if_neg hgate]

/-- The EAT branch of `execute_action`, once the gate passed. -/
theorem execute_action_eat (er : ActionType → ℚ) (W : World) (i : ℕ) (dx dy : ℤ)
    (hgate : ¬ ((W.agentAt i).energy + (W.agentAt i).move_cost * er ActionType.EAT +
      (W.agentAt i).step_cost < 0)) :
    W.execute_action er i (ActionType.EAT, dx, dy) =
      (W.update_agent_energy i (some (W.agentAt i).step_cost) none).bind fun r1 =>
        (r1.1.npRead ((r1.1.agentAt i).position.1 + dx)
            ((r1.1.agentAt i).position.2 + dy)).bind fun prey =>
          match prey with
          | some (Occ.agent j) =>
            if j ∈ r1.1.order then
              (r1.1.update_agent_energy j
                  (some (-(min (r1.1.agentAt i).bite_power
                    ((r1.1.agentAt i).max_energy - (r1.1.agentAt i).energy))))
                  (some (r1.1.agentAt i).position)).bind fun r2 =>
                (r2.1.update_agent_energy i
                    (some ((W.agentAt i).move_cost * er ActionType.EAT + -r2.2))
                    (some (r2.1.agentAt j).position)).map fun r3 =>
                  r3.1.setSuccess i
                    (decide (0 < (W.agentAt i).move_cost * er ActionType.EAT + -r2.2))
            else some (r1.1.setSuccess i false)
          | _ => some (r1.1.setSuccess i false) := by
  unfold World.execute_action
  simp only [if_neg hgate]

/-- Bumping a touch-map cell by zero is the identity. -/
theorem tmBump_zero (m : TMap) (i j : Fin 3) : tmBump m i j 0 = m := by
  funext a b
  unfold tmBump
  split <;> simp

/-- Full characterisation of a world-level energy charge whose touch-map
indices resolve: it succeeds, touches only the charged agent's arena
entry and the energy map, the agent's energy becomes `chargeVal`, and the
actual delta lands in the touch-map cell the source addresses. -/
theorem charge_any (W : World) (i : ℕ) (d : ℚ) (src : Option Pos)
    (hlen : i < W.arena.length)
    (hi' : (npIdx3 (1 + (src.getD (W.agentAt i).position).1 -
      (W.agentAt i).position.1)).isSome = true)
    (hj' : (npIdx3 (1 + (src.getD (W.agentAt i).position).2 -
      (W.agentAt i).position.2)).isSome = true) :
    ∃ W' u, W.update_agent_energy i (some d) src = some (W', u) ∧
      W'.things = W.things ∧
      W'.occupation_bitmap = W.occupation_bitmap ∧
      W'.order = W.order ∧
      W'.width = W.width ∧ W'.height = W.height ∧
      W'.arena.length = W.arena.length ∧
      (∀ j, j ≠ i → W'.agentAt j = W.agentAt j) ∧
      (W'.agentAt i).position = (W.agentAt i).position ∧
      (W'.agentAt i).energy = chargeVal (W.agentAt i) d ∧
      u = usedVal (W.agentAt i) d ∧
      (W'.agentAt i).chosen_action_success = (W.agentAt i).chosen_action_success ∧
      (W'.agentAt i).recycling = (W.agentAt i).recycling ∧
      (W'.agentAt i).max_energy = (W.agentAt i).max_energy ∧
      (W'.agentAt i).bite_power = (W.agentAt i).bite_power ∧
      (W'.agentAt i).step_cost = (W.agentAt i).step_cost ∧
      (W'.agentAt i).move_cost = (W.agentAt i).move_cost ∧
      (∀ fi fj : Fin 3,
        npIdx3 (1 + (src.getD (W.agentAt i).position).1 -
          (W.agentAt i).position.1) = some fi →
        npIdx3 (1 + (src.getD (W.agentAt i).position).2 -
          (W.agentAt i).position.2) = some fj →
        (W.agentAt i).recycling ≠ Recycling.EVERLASTING →
        (usedVal (W.agentAt i) d < 0 →
          (W'.agentAt i).negative_touch_map =
            tmBump (W.agentAt i).negative_touch_map fi fj (usedVal (W.agentAt i) d) ∧
          (W'.agentAt i).positive_touch_map = (W.agentAt i).positive_touch_map) ∧
        (0 ≤ usedVal (W.agentAt i) d →
          (W'.agentAt i).positive_touch_map =
            tmBump (W.agentAt i).positive_touch_map fi fj (usedVal (W.agentAt i) d) ∧
          (W'.agentAt i).negative_touch_map = (W.agentAt i).negative_touch_map)) ∧
      ((W.agentAt i).recycling = Recycling.EVERLASTING →
        (W'.agentAt i).negative_touch_map = (W.agentAt i).negative_touch_map ∧
        (W'.agentAt i).positive_touch_map = (W.agentAt i).positive_touch_map) := by
  classical
  by_cases hrec : (W.agentAt i).recycling = Recycling.EVERLASTING
  · have heq := update_agent_energy_eq W i d src _ d
      (update_energy_everlasting _ d src hrec)
    have hA : ({ W with
        arena := W.arena.set i { W.agentAt i with current_energy_delta := 0 },
        energy_map := fun q =>
          if q = ({ W.agentAt i with current_energy_delta := 0 } : Agent).position
          then ({ W.agentAt i with current_energy_delta := 0 } : Agent).energy
          else W.energy_map q } : World).agentAt i =
        { W.agentAt i with current_energy_delta := 0 } := getD_set_self _ _ _ hlen
    refine ⟨_, _, heq, rfl, rfl, rfl, rfl, rfl, by simp,
      fun j hj2 => getD_set_ne _ _ _ _ (fun h => hj2 h.symm), ?_⟩
    rw [hA]
    exact ⟨rfl, by rw [chargeVal, if_pos hrec], by rw [usedVal, if_pos hrec],
      rfl, rfl, rfl, rfl, rfl, rfl,
      fun fi fj _ _ hne => absurd hrec hne, fun _ => ⟨rfl, rfl⟩⟩
  · obtain ⟨fi, hfi⟩ := Option.isSome_iff_exists.mp hi'
    obtain ⟨fj, hfj⟩ := Option.isSome_iff_exists.mp hj'
    have hupd := update_energy_eq (W.agentAt i) d src hrec fi fj hfi hfj
    have heq := update_agent_energy_eq W i d src _ _ hupd
    have hA : ({ W with
        arena := W.arena.set i (updatedAgent (W.agentAt i) d fi fj),
        energy_map := fun q =>
          if q = (updatedAgent (W.agentAt i) d fi fj).position
          then (updatedAgent (W.agentAt i) d fi fj).energy
          else W.energy_map q } : World).agentAt i =
        updatedAgent (W.agentAt i) d fi fj := getD_set_self _ _ _ hlen
    have hf := updatedAgent_fields (W.agentAt i) d fi fj
    refine ⟨_, _, heq, rfl, rfl, rfl, rfl, rfl, by simp,
      fun j hj2 => getD_set_ne _ _ _ _ (fun h => hj2 h.symm), ?_⟩
    rw [hA]
    refine ⟨hf.1, by rw [hf.2.2.2.2.2.2.2.2.2, chargeVal, if_neg hrec],
      by rw [usedVal, if_neg hrec], hf.2.2.2.2.2.2.2.2.1, hf.2.2.2.2.2.1,
      hf.2.1, hf.2.2.1, hf.2.2.2.1, hf.2.2.2.2.1, ?_,
      fun hEV => absurd hEV hrec⟩
    intro fi0 fj0 hfi0 hfj0 _
    rw [hfi] at hfi0
    rw [hfj] at hfj0
    obtain rfl : fi = fi0 := Option.some.inj hfi0
    obtain rfl : fj = fj0 := Option.some.inj hfj0
    rw [usedVal, if_neg hrec]
    constructor
    · intro hneg
      exact updatedAgent_touch_neg (W.agentAt i) d fi fj hneg
    · intro hpos
      exact updatedAgent_touch_nonneg (W.agentAt i) d fi fj hpos

/-- `chargeVal` ignores the agent's position. -/
theorem chargeVal_pos_irrel (a : Agent) (p : Pos) (d : ℚ) :
    chargeVal { a with position := p } d = chargeVal a d := rfl

/-- `place_at` on an explicit empty-or-own target relocates and succeeds. -/
theorem place_at_success (W : World) (i : ℕ) (p : Pos) (reloc : Bool) (draw : ℕ × ℕ)
    (h : W.tile_is_empty p = true ∨ p = (W.agentAt i).position) :
    W.place_at i (some p) reloc draw = (W.relocateAgent i p, true) := by
  unfold World.place_at
  dsimp only
  rw [if_pos h]

/-- `place_at` with an explicit occupied-or-out-of-bounds target and no
relocation fails without mutating anything. -/
theorem place_at_fail (W : World) (i : ℕ) (p : Pos) (draw : ℕ × ℕ)
    (h : ¬ (W.tile_is_empty p = true ∨ p = (W.agentAt i).position)) :
    W.place_at i (some p) false draw = (W, false) := by
  unfold World.place_at
  dsimp only
  rw [if_neg h]
  simp

/-- What `relocateAgent` does: the agent moves to `p`, which now references
it; tiles other than `p` and the vacated one are untouched. -/
theorem relocateAgent_parts (W : World) (i : ℕ) (p : Pos) (hlen : i < W.arena.length) :
    (W.relocateAgent i p).agentAt i = { W.agentAt i with position := p } ∧
    (∀ j, j ≠ i → (W.relocateAgent i p).agentAt j = W.agentAt j) ∧
    (W.relocateAgent i p).things p = some (Occ.agent i) ∧
    (∀ q, q ≠ p → q ≠ (W.agentAt i).position →
      (W.relocateAgent i p).things q = W.things q) ∧
    (W.relocateAgent i p).arena.length = W.arena.length ∧
    (W.relocateAgent i p).order = W.order ∧
    (W.relocateAgent i p).width = W.width ∧
    (W.relocateAgent i p).height = W.height := by
  unfold World.relocateAgent
  refine ⟨getD_set_self _ _ _ hlen,
    fun j hj => getD_set_ne _ _ _ _ (fun h => hj h.symm),
    by simp, fun q hq1 hq2 => by simp [hq1, hq2], by simp, rfl, rfl, rfl⟩

/-- `npRead` only depends on the grid contents and dimensions. -/
theorem npRead_congr (W2 W : World) (h1 : W2.things = W.things)
    (h2 : W2.width = W.width) (h3 : W2.height = W.height) (x y : ℤ) :
    W2.npRead x y = W.npRead x y := by
  unfold World.npRead
  rw [h1, h2, h3]

/-- Re-clamping a clamped value with a zero delta is the identity. -/
theorem clamp_idem (y M : ℚ) :
    max (min (max (min y M) 0 + 0) M) 0 = max (min y M) 0 := by
  rcases le_or_lt 0 M with hM | hM
  · have hx1 : max (min y M) 0 ≤ M := max_le (min_le_right y M) hM
    have hx0 : (0 : ℚ) ≤ max (min y M) 0 := le_max_right _ _
    rw [add_zero, min_eq_left hx1, max_eq_left hx0]
  · have hx : max (min y M) 0 = 0 := by
      rw [max_eq_right]
      exact le_of_lt (lt_of_le_of_lt (min_le_right y M) hM)
    rw [hx, zero_add, min_eq_right (le_of_lt hM), max_eq_right (le_of_lt hM)]

/-- Charging zero on top of an already-charged energy changes nothing. -/
theorem chargeVal_zero (b a : Agent) (d : ℚ)
    (he : b.energy = chargeVal a d) (hM : b.max_energy = a.max_energy)
    (hr : b.recycling = a.recycling) : chargeVal b 0 = b.energy := by
  unfold chargeVal at he ⊢
  by_cases hEV : a.recycling = Recycling.EVERLASTING
  · rw [hr, if_pos hEV]
  · rw [hr, if_neg hEV, hM, he, if_neg hEV]
    exact clamp_idem (a.energy + d) a.max_energy

/-- Resolution of a viable EAT: the full chain — charge `step_cost`, look
up a prey that is an agent in the ranking, bite it, credit the predator —
characterised in terms of the initial world.  `e1` is the predator's
energy after the step charge, `bite` the attempted bite, `taken` the
prey's reported delta, `ad` the resulting `action_delta`. -/
theorem eat_resolved (er : ActionType → ℚ) (W : World) (i j : ℕ) (dx dy : ℤ)
    (hlen : i < W.arena.length) (hlenj : j < W.arena.length) (hji : j ≠ i)
    (hgate : ¬ ((W.agentAt i).energy + (W.agentAt i).move_cost * er ActionType.EAT +
      (W.agentAt i).step_cost < 0))
    (hlook : W.npRead ((W.agentAt i).position.1 + dx) ((W.agentAt i).position.2 + dy) =
      some (some (Occ.agent j)))
    (hjord : j ∈ W.order)
    (e1 bite taken ad : ℚ)
    (he1 : e1 = chargeVal (W.agentAt i) (W.agentAt i).step_cost)
    (hbite : bite = min (W.agentAt i).bite_power ((W.agentAt i).max_energy - e1))
    (htaken : taken = usedVal (W.agentAt j) (-bite))
    (had : ad = (W.agentAt i).move_cost * er ActionType.EAT + -taken)
    (gi gj : Fin 3)
    (hpj1 : (npIdx3 (1 + (W.agentAt i).position.1 - (W.agentAt j).position.1)).isSome = true)
    (hpj2 : (npIdx3 (1 + (W.agentAt i).position.2 - (W.agentAt j).position.2)).isSome = true)
    (hpi1 : npIdx3 (1 + (W.agentAt j).position.1 - (W.agentAt i).position.1) = some gi)
    (hpi2 : npIdx3 (1 + (W.agentAt j).position.2 - (W.agentAt i).position.2) = some gj) :
    ∃ W', W.execute_action er i (ActionType.EAT, dx, dy) = some W' ∧
      (W'.agentAt j).energy = chargeVal (W.agentAt j) (-bite) ∧
      (W'.agentAt j).position = (W.agentAt j).position ∧
      (W'.agentAt i).position = (W.agentAt i).position ∧
      (W'.agentAt i).energy =
        (if (W.agentAt i).recycling = Recycling.EVERLASTING then (W.agentAt i).energy
         else max (min (e1 + ad) (W.agentAt i).max_energy) 0) ∧
      (W'.agentAt i).chosen_action_success = decide (0 < ad) ∧
      W'.things = W.things ∧
      W'.order = W.order ∧
      (∀ k, k ≠ i → k ≠ j → W'.agentAt k = W.agentAt k) ∧
      ((W.agentAt i).recycling ≠ Recycling.EVERLASTING →
        (W.agentAt i).step_cost ≤ 0 → 0 ≤ (W.agentAt i).energy →
        0 ≤ max (min (e1 + ad) (W.agentAt i).max_energy) 0 - e1 →
        (W'.agentAt i).positive_touch_map =
          tmBump (W.agentAt i).positive_touch_map gi gj
            (max (min (e1 + ad) (W.agentAt i).max_energy) 0 - e1)) := by
  obtain ⟨W1, u1, heq1, hthings1, hbm1, horder1, hw1, hh1, hlen1, hother1, hpos1, hE1,
      hu1, hsucc1, hrec1, hmax1, hbp1, hsc1, hmc1, htch1, hevtch1⟩ :=
    charge_any W i (W.agentAt i).step_cost none hlen
      (by simp [npIdx3_self, npIdx3_one]) (by simp [npIdx3_self, npIdx3_one])
  have hlenW1 : j < W1.arena.length := by rw [hlen1]; exact hlenj
  obtain ⟨W2, u2, heq2, hthings2, hbm2, horder2, hw2, hh2, hlen2, hother2, hpos2, hE2,
      hu2, hsucc2, hrec2, hmax2, hbp2, hsc2, hmc2, htch2, hevtch2⟩ :=
    charge_any W1 j (-bite) (some (W.agentAt i).position) hlenW1
      (by simp only [Option.getD_some]; rw [hother1 j hji]; exact hpj1)
      (by simp only [Option.getD_some]; rw [hother1 j hji]; exact hpj2)
  have hlenW2 : i < W2.arena.length := by rw [hlen2, hlen1]; exact hlen
  obtain ⟨W3, u3, heq3, hthings3, hbm3, horder3, hw3, hh3, hlen3, hother3, hpos3, hE3,
      hu3, hsucc3, hrec3, hmax3, hbp3, hsc3, hmc3, htch3, hevtch3⟩ :=
    charge_any W2 i ad (some (W.agentAt j).position) hlenW2
      (by simp only [Option.getD_some]
          rw [hother2 i (fun h => hji h.symm), hpos1, hpi1]
          rfl)
      (by simp only [Option.getD_some]
          rw [hother2 i (fun h => hji h.symm), hpos1, hpi2]
          rfl)
  have hrun : W.execute_action er i (ActionType.EAT, dx, dy) =
      some (W3.setSuccess i (decide (0 < ad))) := by
    rw [execute_action_eat er W i dx dy hgate, heq1]
    simp only [Option.some_bind]
    rw [npRead_congr W1 W hthings1 hw1 hh1, hpos1, hlook]
    simp only [Option.some_bind]
    rw [horder1, if_pos hjord, hbp1, hmax1, hE1, ← he1, ← hbite, heq2]
    simp only [Option.some_bind]
    rw [hpos2, hother1 j hji, hu2, hother1 j hji, ← htaken, ← had, heq3]
    simp only [Option.map_some']
  refine ⟨_, hrun, ?_, ?_, ?_, ?_, ?_, ?_, ?_, ?_, ?_⟩
  · rw [(setSuccess_parts W3 i _).2.2.2.2.2 j hji, hother3 j hji, hE2, hother1 j hji]
  · rw [(setSuccess_parts W3 i _).2.2.2.2.2 j hji, hother3 j hji, hpos2, hother1 j hji]
  · have hlenW3 : i < W3.arena.length := by rw [hlen3]; exact hlenW2
    rw [setSuccess_agentAt_self W3 i _ hlenW3]
    show (W3.agentAt i).position = _
    rw [hpos3, hother2 i (fun h => hji h.symm), hpos1]
  · have hlenW3 : i < W3.arena.length := by rw [hlen3]; exact hlenW2
    rw [setSuccess_agentAt_self W3 i _ hlenW3]
    show (W3.agentAt i).energy = _
    rw [hE3]
    unfold chargeVal
    rw [hother2 i (fun h => hji h.symm)]
    rw [hrec1, hmax1, hE1, ← he1]
    by_cases hEV : (W.agentAt i).recycling = Recycling.EVERLASTING
    · rw [if_pos hEV, if_pos hEV, he1]
      unfold chargeVal
      rw [if_pos hEV]
    · rw [if_neg hEV, if_neg hEV]
  · have hlenW3 : i < W3.arena.length := by rw [hlen3]; exact hlenW2
    rw [setSuccess_agentAt_self W3 i _ hlenW3]
  · rw [(setSuccess_parts W3 i _).1, hthings3, hthings2, hthings1]
  · rw [(setSuccess_parts W3 i _).2.2.2.1, horder3, horder2, horder1]
  · intro k hki hkj
    rw [(setSuccess_parts W3 i _).2.2.2.2.2 k hki, hother3 k hki, hother2 k hkj,
      hother1 k hki]
  · intro hnEV hsc0 he0 hg0
    have hlenW3 : i < W3.arena.length := by rw [hlen3]; exact hlenW2
    rw [setSuccess_agentAt_self W3 i _ hlenW3]
    show (W3.agentAt i).positive_touch_map = _
    have hWi2 : W2.agentAt i = W1.agentAt i := hother2 i (fun h => hji h.symm)
    have hused3 : usedVal (W2.agentAt i) ad =
        max (min (e1 + ad) (W.agentAt i).max_energy) 0 - e1 := by
      unfold usedVal
      rw [hWi2, hrec1, if_neg hnEV, hE1, ← he1, hmax1]
    have hfi3 : npIdx3 (1 + ((some (W.agentAt j).position).getD
        (W2.agentAt i).position).1 - (W2.agentAt i).position.1) = some gi := by
      simp only [Option.getD_some]
      rw [hWi2, hpos1]
      exact hpi1
    have hfj3 : npIdx3 (1 + ((some (W.agentAt j).position).getD
        (W2.agentAt i).position).2 - (W2.agentAt i).position.2) = some gj := by
      simp only [Option.getD_some]
      rw [hWi2, hpos1]
      exact hpi2
    have hrecW2 : (W2.agentAt i).recycling ≠ Recycling.EVERLASTING := by
      rw [hWi2, hrec1]
      exact hnEV
    have ht := (htch3 gi gj hfi3 hfj3 hrecW2).2 (by rw [hused3]; exact hg0)
    rw [ht.1, hused3]
    have hpos_p : (W2.agentAt i).positive_touch_map =
        (W.agentAt i).positive_touch_map := by
      rw [hWi2]
      have hfi1 : npIdx3 (1 + ((none : Option Pos).getD
          (W.agentAt i).position).1 - (W.agentAt i).position.1) = some 1 := by
        simp only [Option.getD_none]
        exact npIdx3_self _
      have hfj1 : npIdx3 (1 + ((none : Option Pos).getD
          (W.agentAt i).position).2 - (W.agentAt i).position.2) = some 1 := by
        simp only [Option.getD_none]
        exact npIdx3_self _
      have hu1le : usedVal (W.agentAt i) (W.agentAt i).step_cost ≤ 0 := by
        unfold usedVal
        rw [if_neg hnEV]
        have h1 : min ((W.agentAt i).energy + (W.agentAt i).step_cost)
            (W.agentAt i).max_energy ≤
            (W.agentAt i).energy + (W.agentAt i).step_cost := min_le_left _ _
        have h2 : max (min ((W.agentAt i).energy + (W.agentAt i).step_cost)
            (W.agentAt i).max_energy) 0 ≤ (W.agentAt i).energy :=
          max_le (by linarith) he0
        linarith
      rcases lt_or_eq_of_le hu1le with hlt | heq0
      · exact ((htch1 1 1 hfi1 hfj1 hnEV).1 hlt).2
      · have hz := (htch1 1 1 hfi1 hfj1 hnEV).2 (le_of_eq heq0.symm)
        rw [hz.1, heq0, tmBump_zero]
    rw [hpos_p]

/-- A reported delta of zero means the economy left the energy alone. -/
theorem chargeVal_of_used_zero (p : Agent) (d : ℚ) (h : usedVal p d = 0) :
    chargeVal p d = p.energy := by
  unfold usedVal at h
  unfold chargeVal
  by_cases hEV : p.recycling = Recycling.EVERLASTING
  · rw [if_pos hEV]
  · rw [if_neg hEV] at h
    rw [if_neg hEV]
    linarith

/-- The failing EAT tail: the target occupant is no agent of the ranking,
so after the unconditional step charge the action fails in place. -/
theorem eat_fail_lookup (er : ActionType → ℚ) (W : World) (i : ℕ) (dx dy : ℤ)
    (occ : Option Occ)
    (hlen : i < W.arena.length)
    (hgate : ¬ ((W.agentAt i).energy + (W.agentAt i).move_cost * er ActionType.EAT +
      (W.agentAt i).step_cost < 0))
    (hlook : W.npRead ((W.agentAt i).position.1 + dx) ((W.agentAt i).position.2 + dy) =
      some occ)
    (hocc : ∀ j, occ = some (Occ.agent j) → j ∉ W.order) :
    ∃ W', W.execute_action er i (ActionType.EAT, dx, dy) = some W' ∧
      (W'.agentAt i).chosen_action_success = false ∧
      (W'.agentAt i).energy = chargeVal (W.agentAt i) (W.agentAt i).step_cost ∧
      (W'.agentAt i).position = (W.agentAt i).position ∧
      W'.things = W.things ∧
      (∀ k, k ≠ i → W'.agentAt k = W.agentAt k) := by
  obtain ⟨W1, u1, heq1, hthings1, hbm1, horder1, hw1, hh1, hlen1, hother1, hpos1, hE1,
      hu1, hsucc1, hrec1, hmax1, hbp1, hsc1, hmc1, htch1, hevtch1⟩ :=
    charge_any W i (W.agentAt i).step_cost none hlen
      (by simp [npIdx3_self, npIdx3_one]) (by simp [npIdx3_self, npIdx3_one])
  have hlenW1 : i < W1.arena.length := by rw [hlen1]; exact hlen
  have hrun : W.execute_action er i (ActionType.EAT, dx, dy) =
      some (W1.setSuccess i false) := by
    rw [execute_action_eat er W i dx dy hgate, heq1]
    simp only [Option.some_bind]
    rw [npRead_congr W1 W hthings1 hw1 hh1, hpos1, hlook]
    simp only [Option.some_bind]
    rcases occ with _ | o
    · rfl
    · rcases o with j | b
      · dsimp only
        rw [horder1, if_neg (hocc j rfl)]
      · rfl
  refine ⟨_, hrun, ?_, ?_, ?_, ?_, ?_⟩
  · rw [setSuccess_agentAt_self W1 i false hlenW1]
  · rw [setSuccess_agentAt_self W1 i false hlenW1]
    show (W1.agentAt i).energy = _
    exact hE1
  · rw [setSuccess_agentAt_self W1 i false hlenW1]
    show (W1.agentAt i).position = _
    exact hpos1
  · rw [(setSuccess_parts W1 i false).1, hthings1]
  · intro k hk
    rw [(setSuccess_parts W1 i false).2.2.2.2.2 k hk, hother1 k hk]

/-- The scan successor stays within the grid. -/
theorem nextTile_bounds (w h : ℕ) (p : ℕ × ℕ) (hw : 0 < w) (hh : 0 < h)
    (hp2 : p.2 < h) : (nextTile w h p).1 < w ∧ (nextTile w h p).2 < h := by
  unfold nextTile
  refine ⟨Nat.mod_lt _ hw, ?_⟩
  dsimp only
  split
  · exact Nat.mod_lt _ hh
  · exact hp2

/-- A tile's row-major code is within the grid size. -/
theorem encT_lt (w h : ℕ) (p : ℕ × ℕ) (hp1 : p.1 < w) (hp2 : p.2 < h) :
    encT w p < w * h := by
  unfold encT
  calc p.2 * w + p.1 < p.2 * w + w := by omega
  _ = (p.2 + 1) * w := by ring
  _ ≤ h * w := Nat.mul_le_mul_right w hp2
  _ = w * h := Nat.mul_comm h w

/-- Decoding inverts encoding on in-bounds tiles. -/
theorem decT_encT (w : ℕ) (hw : 0 < w) (p : ℕ × ℕ) (hp1 : p.1 < w) :
    decT w (encT w p) = p := by
  unfold decT encT
  have hmod : (p.2 * w + p.1) % w = p.1 := by
    rw [Nat.mul_comm p.2 w, Nat.mul_add_mod, Nat.mod_eq_of_lt hp1]
  have hdiv : (p.2 * w + p.1) / w = p.2 := by
    rw [Nat.mul_comm p.2 w, Nat.mul_add_div hw, Nat.div_eq_of_lt hp1, Nat.add_zero]
  rw [hmod, hdiv]

/-- The scan successor is +1 in row-major code, modulo the grid size. -/
theorem nextTile_encT (w h : ℕ) (p : ℕ × ℕ) (hw : 0 < w) (hh : 0 < h)
    (hp1 : p.1 < w) (hp2 : p.2 < h) :
    encT w (nextTile w h p) = (encT w p + 1) % (w * h) := by
  rcases p with ⟨x, y⟩
  unfold nextTile encT
  dsimp only
  rcases Nat.lt_or_ge (x + 1) w with hx | hx
  · rw [Nat.mod_eq_of_lt hx, if_neg (by omega)]
    have hlt : y * w + x + 1 < w * h := by
      calc y * w + x + 1 < y * w + w := by omega
      _ = (y + 1) * w := by ring
      _ ≤ h * w := Nat.mul_le_mul_right w hp2
      _ = w * h := Nat.mul_comm h w
    rw [Nat.mod_eq_of_lt hlt]
    omega
  · have hxw : x + 1 = w := by omega
    have h0 : (x + 1) % w = 0 := by rw [hxw]; exact Nat.mod_self w
    rw [h0, if_pos rfl]
    rcases Nat.lt_or_ge (y + 1) h with hy | hy
    · rw [Nat.mod_eq_of_lt hy]
      have hlt : y * w + x + 1 < w * h := by
        have h1 : y * w + x + 1 = (y + 1) * w := by rw [← hxw]; ring
        rw [h1, Nat.mul_comm w h]
        exact (Nat.mul_lt_mul_right hw).mpr hy
      rw [Nat.mod_eq_of_lt hlt, ← hxw]
      ring
    · have hyh : y + 1 = h := by omega
      rw [hyh, Nat.mod_self]
      have hwh : y * w + x + 1 = w * h := by rw [← hxw, ← hyh]; ring
      rw [hwh, Nat.mod_self]
      simp

/-- Bounds and code of the k-th scan successor. -/
theorem nextIter_facts (w h : ℕ) (hw : 0 < w) (hh : 0 < h) (p : ℕ × ℕ)
    (hp1 : p.1 < w) (hp2 : p.2 < h) :
    ∀ k, ((nextTile w h)^[k] p).1 < w ∧ ((nextTile w h)^[k] p).2 < h ∧
      encT w ((nextTile w h)^[k] p) = (encT w p + k) % (w * h) := by
  intro k
  induction k with
  | zero =>
    refine ⟨hp1, hp2, ?_⟩
    simp [Nat.mod_eq_of_lt (encT_lt w h p hp1 hp2)]
  | succ k ih =>
    obtain ⟨h1, h2, h3⟩ := ih
    rw [Function.iterate_succ_apply']
    obtain ⟨b1, b2⟩ := nextTile_bounds w h _ hw hh h2
    refine ⟨b1, b2, ?_⟩
    rw [nextTile_encT w h _ hw hh h1 h2, h3]
    have := (Nat.mod_modEq (encT w p + k) (w * h)).add_right 1
    calc ((encT w p + k) % (w * h) + 1) % (w * h)
        = (encT w p + k + 1) % (w * h) := this
    _ = (encT w p + (k + 1)) % (w * h) := by ring_nf

/-- A tile the scan returns is empty (and hence in-bounds). -/
theorem scanFree_some_empty (W : World) (start : ℕ × ℕ) :
    ∀ n p q, scanFree W start n p = some q → W.tile_is_empty q = true := by
  intro n
  induction n with
  | zero => intro p q hq; simp [scanFree] at hq
  | succ n ih =>
    intro p q hq
    simp only [scanFree] at hq
    by_cases hemp : W.tile_is_empty (((nextTile W.width W.height p).1 : ℤ),
        ((nextTile W.width W.height p).2 : ℤ)) = true
    · rw [if_pos hemp] at hq
      obtain rfl := Option.some.inj hq
      exact hemp
    · rw [if_neg hemp] at hq
      by_cases hqs : nextTile W.width W.height p = start
      · rw [if_pos hqs] at hq
        cases hq
      · rw [if_neg hqs] at hq
        exact ih _ _ hq

/-- On a fully occupied grid the scan fails. -/
theorem scanFree_none_of_full (W : World) (start : ℕ × ℕ)
    (hall : ∀ p : Pos, W.tile_is_empty p = false) :
    ∀ n p, scanFree W start n p = none := by
  intro n
  induction n with
  | zero => intro p; rfl
  | succ n ih =>
    intro p
    simp only [scanFree]
    rw [if_neg (by rw [hall]; exact Bool.false_ne_true)]
    by_cases hqs : nextTile W.width W.height p = start
    · rw [if_pos hqs]
    · rw [if_neg hqs]
      exact ih _

/-- If the scan fails, every probed tile was occupied: the k-th successor
of the scan position is occupied as long as the scan had fuel to reach it
without first closing the loop at the start tile. -/
theorem scanFree_none_occupied (W : World) (start : ℕ × ℕ) :
    ∀ n p, scanFree W start n p = none →
      ∀ k, 1 ≤ k → k ≤ n →
      (∀ l, 1 ≤ l → l < k → (nextTile W.width W.height)^[l] p ≠ start) →
      W.tile_is_empty ((((nextTile W.width W.height)^[k] p).1 : ℤ),
        (((nextTile W.width W.height)^[k] p).2 : ℤ)) = false := by
  intro n
  induction n with
  | zero => intro p _ k hk1 hk0 _; omega
  | succ n ih =>
    intro p hnone k hk1 hkn hnostart
    simp only [scanFree] at hnone
    by_cases hemp : W.tile_is_empty (((nextTile W.width W.height p).1 : ℤ),
        ((nextTile W.width W.height p).2 : ℤ)) = true
    · rw [if_pos hemp] at hnone
      cases hnone
    · rw [if_neg hemp] at hnone
      rcases Nat.lt_or_ge k 2 with hk2 | hk2
      · have hk : k = 1 := by omega
        subst hk
        rw [Function.iterate_one]
        exact Bool.not_eq_true _ |>.mp hemp
      · by_cases hqs : nextTile W.width W.height p = start
        · exact absurd (by rw [Function.iterate_one]; exact hqs)
            (hnostart 1 le_rfl (by omega))
        · rw [if_neg hqs] at hnone
          have hk : k = (k - 1) + 1 := by omega
          rw [hk, Function.iterate_succ_apply]
          apply ih (nextTile W.width W.height p) hnone (k - 1) (by omega) (by omega)
          intro l hl1 hlk
          rw [← Function.iterate_succ_apply]
          exact hnostart (l + 1) (by omega) (by omega)

/-- Any code distinct from the start code is reached within fewer than N
steps of +1 mod N. -/
theorem cycle_reach (N e0 eq2 : ℕ) (h0 : e0 < N) (hq : eq2 < N) (hne : eq2 ≠ e0) :
    ∃ k, 1 ≤ k ∧ k < N ∧ (e0 + k) % N = eq2 := by
  rcases le_or_lt e0 eq2 with hle | hlt
  · refine ⟨eq2 - e0, by omega, by omega, ?_⟩
    rw [show e0 + (eq2 - e0) = eq2 by omega, Nat.mod_eq_of_lt hq]
  · refine ⟨eq2 + N - e0, by omega, by omega, ?_⟩
    rw [show e0 + (eq2 + N - e0) = eq2 + N by omega, Nat.add_mod_right,
      Nat.mod_eq_of_lt hq]

/-- Fewer than N steps of +1 mod N never return to the start code. -/
theorem cycle_no_return (N e0 : ℕ) (h0 : e0 < N) (l : ℕ) (hl1 : 1 ≤ l)
    (hlN : l < N) : (e0 + l) % N ≠ e0 := by
  intro h
  have hmod : (e0 + l) % N = (e0 + 0) % N := by
    rw [h, Nat.add_zero, Nat.mod_eq_of_lt h0]
  have hdvd : N ∣ l := (Nat.modEq_zero_iff_dvd).mp
    (Nat.ModEq.add_left_cancel' e0 hmod)
  have := Nat.le_of_dvd (by omega) hdvd
  omega

/-- If the wraparound scan from an occupied start fails with a probe
budget of width·height, then every tile of the grid is occupied. -/
theorem find_free_none_occupied (W : World) (st : ℕ × ℕ)
    (hw : 0 < W.width) (hh : 0 < W.height)
    (hs1 : st.1 < W.width) (hs2 : st.2 < W.height)
    (hso : ¬ W.tile_is_empty ((st.1 : ℤ), (st.2 : ℤ)) = true)
    (hscan : scanFree W st (W.width * W.height) st = none) :
    ∀ x y : ℕ, x < W.width → y < W.height → W.things ((x : ℤ), (y : ℤ)) ≠ none := by
  intro x y hx hy hcon
  have hib : inBounds W ((x : ℤ), (y : ℤ)) := by
    unfold inBounds
    refine ⟨by omega, by omega, by omega, by omega⟩
  have hempt : W.tile_is_empty ((x : ℤ), (y : ℤ)) = true := by
    unfold World.tile_is_empty
    rw [if_pos hib, hcon]
    rfl
  by_cases hq : (x, y) = st
  · apply hso
    rw [← hq]
    exact hempt
  · have hiter := nextIter_facts W.width W.height hw hh st hs1 hs2
    have hex : encT W.width (x, y) < W.width * W.height := encT_lt _ _ _ hx hy
    have hes : encT W.width st < W.width * W.height := encT_lt _ _ _ hs1 hs2
    have hne : encT W.width (x, y) ≠ encT W.width st := by
      intro h
      apply hq
      have d1 := decT_encT W.width hw (x, y) hx
      have d2 := decT_encT W.width hw st hs1
      rw [← d1, ← d2, h]
    obtain ⟨k, hk1, hkN, hkeq⟩ := cycle_reach (W.width * W.height)
      (encT W.width st) (encT W.width (x, y)) hes hex hne
    have hno : ∀ l, 1 ≤ l → l < k →
        (nextTile W.width W.height)^[l] st ≠ st := by
      intro l hl1 hlk heq
      have h3 := (hiter l).2.2
      rw [heq] at h3
      have h4 : (encT W.width st + l) % (W.width * W.height) = encT W.width st :=
        h3.symm
      exact cycle_no_return _ _ hes l hl1 (by omega) h4
    have hocck := scanFree_none_occupied W st (W.width * W.height) st hscan
      k hk1 (by omega) hno
    have hiterk := hiter k
    have hpt : (nextTile W.width W.height)^[k] st = (x, y) := by
      have d1 := decT_encT W.width hw _ hiterk.1
      have d2 := decT_encT W.width hw (x, y) hx
      rw [← d1, ← d2, hiterk.2.2, hkeq]
    rw [hpt, hempt] at hocck
    cases hocck

/-- `sameShape` is reflexive. -/
theorem sameShape_refl (W : World) : sameShape W W := ⟨rfl, rfl, rfl, rfl⟩

/-- `sameShape` composes. -/
theorem sameShape_trans {W3 W2 W : World} (h1 : sameShape W3 W2)
    (h2 : sameShape W2 W) : sameShape W3 W :=
  ⟨h1.1.trans h2.1, h1.2.1.trans h2.2.1, h1.2.2.1.trans h2.2.2.1,
    h1.2.2.2.trans h2.2.2.2⟩

/-- A position is a grid tile exactly when it is in bounds. -/
theorem mem_tiles (W : World) (p : Pos) : p ∈ tiles W ↔ inBounds W p := by
  unfold tiles inBounds
  constructor
  · intro hp
    obtain ⟨q, hq, rfl⟩ := Finset.mem_image.mp hp
    rw [Finset.mem_product, Finset.mem_range, Finset.mem_range] at hq
    obtain ⟨hq1, hq2⟩ := hq
    refine ⟨?_, ?_, ?_, ?_⟩
    · show (0 : ℤ) ≤ (q.1 : ℤ)
      omega
    · show (q.1 : ℤ) ≤ (W.width : ℤ) - 1
      omega
    · show (0 : ℤ) ≤ (q.2 : ℤ)
      omega
    · show (q.2 : ℤ) ≤ (W.height : ℤ) - 1
      omega
  · intro hb
    obtain ⟨h1, h2, h3, h4⟩ := hb
    refine Finset.mem_image.mpr ⟨(p.1.toNat, p.2.toNat), ?_, ?_⟩
    · rw [Finset.mem_product, Finset.mem_range, Finset.mem_range]
      refine ⟨?_, ?_⟩
      · show p.1.toNat < W.width
        omega
      · show p.2.toNat < W.height
        omega
    · show ((p.1.toNat : ℤ), (p.2.toNat : ℤ)) = p
      rw [Prod.ext_iff]
      exact ⟨Int.toNat_of_nonneg h1, Int.toNat_of_nonneg h3⟩

/-- The conservation invariant as a consequence of well-formedness: the
grid's energy total equals the agents' energy total (the assertion of
world.py `post_step`). -/
theorem Wf.sum_eq {W : World} (hW : Wf W) : gridTotal W = agentTotal W := by
  classical
  have hcast : ∀ q ∈ Finset.range W.width ×ˢ Finset.range W.height,
      ∀ r ∈ Finset.range W.width ×ˢ Finset.range W.height,
      ((q.1 : ℤ), (q.2 : ℤ)) = ((r.1 : ℤ), (r.2 : ℤ)) → q = r := by
    intro q _ r _ hqr
    have h1 : (q.1 : ℤ) = (r.1 : ℤ) := congrArg Prod.fst hqr
    have h2 : (q.2 : ℤ) = (r.2 : ℤ) := congrArg Prod.snd hqr
    exact Prod.ext_iff.mpr ⟨by exact_mod_cast h1, by exact_mod_cast h2⟩
  have himg1 : ∑ p ∈ tiles W, energyOfOcc W (W.things p)
      = ∑ q ∈ Finset.range W.width ×ˢ Finset.range W.height,
          energyOfOcc W (W.things ((q.1 : ℤ), (q.2 : ℤ))) :=
    Finset.sum_image hcast
  have himg2 : ∑ q ∈ Finset.range W.width ×ˢ Finset.range W.height,
      energyOfOcc W (W.things ((q.1 : ℤ), (q.2 : ℤ)))
      = ∑ x ∈ Finset.range W.width, ∑ y ∈ Finset.range W.height,
          energyOfOcc W (W.things ((x : ℤ), (y : ℤ))) :=
    Finset.sum_product _ _ _
  have hgrid : gridTotal W = ∑ p ∈ tiles W, energyOfOcc W (W.things p) := by
    rw [himg1, himg2]
    unfold gridTotal
    exact Finset.sum_congr rfl fun x _ => Finset.sum_congr rfl fun y _ =>
      hW.energy_mirror ((x : ℤ), (y : ℤ))
  have hposinj : ∀ a ∈ Finset.range W.arena.length,
      ∀ b ∈ Finset.range W.arena.length,
      (W.agentAt a).position = (W.agentAt b).position → a = b := by
    intro a ha b hb hab
    rw [Finset.mem_range] at ha hb
    have h1 := (hW.agent_placed a ha).2
    have h2 := (hW.agent_placed b hb).2
    rw [hab, h2] at h1
    exact (Occ.agent.inj (Option.some.inj h1)).symm
  have hsub : (Finset.range W.arena.length).image
      (fun k => (W.agentAt k).position) ⊆ tiles W := by
    intro p hp
    obtain ⟨k, hk, rfl⟩ := Finset.mem_image.mp hp
    rw [Finset.mem_range] at hk
    exact (mem_tiles W _).mpr (hW.agent_placed k hk).1
  have hzero : ∀ p ∈ tiles W,
      p ∉ (Finset.range W.arena.length).image (fun k => (W.agentAt k).position) →
      energyOfOcc W (W.things p) = 0 := by
    intro p _ hnp
    cases hth : W.things p with
    | none => rfl
    | some o =>
      cases o with
      | block b => rfl
      | agent k =>
        exact absurd (Finset.mem_image.mpr ⟨k,
          Finset.mem_range.mpr (hW.grid_agents p k hth).1,
          (hW.grid_agents p k hth).2⟩) hnp
  have hsum2 : ∑ p ∈ tiles W, energyOfOcc W (W.things p)
      = ∑ p ∈ (Finset.range W.arena.length).image
          (fun k => (W.agentAt k).position), energyOfOcc W (W.things p) :=
    (Finset.sum_subset hsub hzero).symm
  have hsum3 : ∑ p ∈ (Finset.range W.arena.length).image
      (fun k => (W.agentAt k).position), energyOfOcc W (W.things p)
      = ∑ k ∈ Finset.range W.arena.length,
          energyOfOcc W (W.things ((W.agentAt k).position)) :=
    Finset.sum_image hposinj
  have hsum4 : ∑ k ∈ Finset.range W.arena.length,
      energyOfOcc W (W.things ((W.agentAt k).position))
      = ∑ k ∈ Finset.range W.arena.length, (W.agentAt k).energy := by
    refine Finset.sum_congr rfl fun k hk => ?_
    rw [Finset.mem_range] at hk
    rw [(hW.agent_placed k hk).2]
    rfl
  have horder : W.order.toFinset = Finset.range W.arena.length := by
    apply Finset.ext
    intro k
    rw [List.mem_toFinset, Finset.mem_range]
    exact hW.order_iff k
  have hagent : agentTotal W
      = ∑ k ∈ Finset.range W.arena.length, (W.agentAt k).energy := by
    unfold agentTotal
    rw [← List.sum_toFinset _ hW.order_nodup, horder]
  rw [hgrid, hsum2, hsum3, hsum4, hagent]

/-- Replacing an arena entry by an agent with the same position, energy,
energy cap and cost profile preserves well-formedness. -/
theorem Wf_set_core (W : World) (i : ℕ) (a' : Agent)
    (hi : i < W.arena.length)
    (hpos : a'.position = (W.agentAt i).position)
    (hE : a'.energy = (W.agentAt i).energy)
    (hM : a'.max_energy = (W.agentAt i).max_energy)
    (hsc : a'.step_cost = (W.agentAt i).step_cost)
    (hmc : a'.move_cost = (W.agentAt i).move_cost)
    (hbp : a'.bite_power = (W.agentAt i).bite_power)
    (hW : Wf W) : Wf { W with arena := W.arena.set i a' } := by
  set W2 : World := { W with arena := W.arena.set i a' } with hW2
  have hself : W2.agentAt i = a' := getD_set_self _ _ _ hi
  have hother : ∀ j, j ≠ i → W2.agentAt j = W.agentAt j :=
    fun j hj => getD_set_ne _ _ _ _ fun h => hj h.symm
  have hlen : W2.arena.length = W.arena.length := by
    show (W.arena.set i a').length = W.arena.length
    simp
  constructor
  · exact hW.width_pos
  · exact hW.height_pos
  · intro k
    rw [hlen]
    exact hW.order_iff k
  · exact hW.order_nodup
  · intro j hj
    rw [hlen] at hj
    by_cases hji : j = i
    · subst hji
      rw [hself, hpos]
      exact hW.agent_placed j hj
    · rw [hother j hji]
      exact hW.agent_placed j hj
  · intro p k hk
    have hk' : W.things p = some (Occ.agent k) := hk
    obtain ⟨hk1, hk2⟩ := hW.grid_agents p k hk'
    refine ⟨by rw [hlen]; exact hk1, ?_⟩
    by_cases hki : k = i
    · subst hki
      rw [hself, hpos]
      exact hk2
    · rw [hother k hki]
      exact hk2
  · intro p
    show W.energy_map p = energyOfOcc W2 (W.things p)
    rw [hW.energy_mirror p]
    cases hth : W.things p with
    | none => rfl
    | some o =>
      cases o with
      | block b => rfl
      | agent k =>
        show (W.agentAt k).energy = (W2.agentAt k).energy
        by_cases hki : k = i
        · subst hki
          rw [hself, hE]
        · rw [hother k hki]
  · intro p hnb
    exact hW.grid_bounded p hnb
  · intro j hj
    rw [hlen] at hj
    by_cases hji : j = i
    · subst hji
      rw [hself, hE, hM]
      exact hW.energy_bounds j hj
    · rw [hother j hji]
      exact hW.energy_bounds j hj
  · intro j hj
    rw [hlen] at hj
    by_cases hji : j = i
    · subst hji
      rw [hself, hsc, hmc, hbp]
      exact hW.cost_signs j hj
    · rw [hother j hji]
      exact hW.cost_signs j hj

/-- `sameShape` for a pure arena write. -/
theorem sameShape_set (W : World) (i : ℕ) (a' : Agent) :
    sameShape { W with arena := W.arena.set i a' } W := by
  refine ⟨?_, rfl, rfl, rfl⟩
  show (W.arena.set i a').length = W.arena.length
  simp

/-- `setSuccess` preserves well-formedness. -/
theorem Wf_setSuccess (W : World) (i : ℕ) (s : Bool)
    (hi : i < W.arena.length) (hW : Wf W) : Wf (W.setSuccess i s) :=
  Wf_set_core W i { W.agentAt i with chosen_action_success := s }
    hi rfl rfl rfl rfl rfl rfl hW

theorem sameShape_setSuccess (W : World) (i : ℕ) (s : Bool) :
    sameShape (W.setSuccess i s) W :=
  sameShape_set W i { W.agentAt i with chosen_action_success := s }

/-- `setChosen` preserves well-formedness. -/
theorem Wf_setChosen (W : World) (i : ℕ) (a : Act)
    (hi : i < W.arena.length) (hW : Wf W) : Wf (W.setChosen i a) :=
  Wf_set_core W i { W.agentAt i with chosen_action := a }
    hi rfl rfl rfl rfl rfl rfl hW

theorem sameShape_setChosen (W : World) (i : ℕ) (a : Act) :
    sameShape (W.setChosen i a) W :=
  sameShape_set W i { W.agentAt i with chosen_action := a }

/-- `mapAgent` with a map preserving the economy-relevant fields
preserves well-formedness. -/
theorem Wf_mapAgent_core (W : World) (i : ℕ) (f : Agent → Agent)
    (hi : i < W.arena.length)
    (hpos : (f (W.agentAt i)).position = (W.agentAt i).position)
    (hE : (f (W.agentAt i)).energy = (W.agentAt i).energy)
    (hM : (f (W.agentAt i)).max_energy = (W.agentAt i).max_energy)
    (hsc : (f (W.agentAt i)).step_cost = (W.agentAt i).step_cost)
    (hmc : (f (W.agentAt i)).move_cost = (W.agentAt i).move_cost)
    (hbp : (f (W.agentAt i)).bite_power = (W.agentAt i).bite_power)
    (hW : Wf W) : Wf (W.mapAgent i f) :=
  Wf_set_core W i (f (W.agentAt i)) hi hpos hE hM hsc hmc hbp hW

theorem sameShape_mapAgent (W : World) (i : ℕ) (f : Agent → Agent) :
    sameShape (W.mapAgent i f) W :=
  sameShape_set W i (f (W.agentAt i))

/-- A successful `Agent.update_energy` keeps the position, the cap and the
cost profile, and the resulting energy is either unchanged (EVERLASTING)
or the clamped value. -/
theorem update_energy_core (a : Agent) (d : ℚ) (src : Option Pos)
    (r : Agent × ℚ) (h : a.update_energy d src = some r) :
    r.1.position = a.position ∧ r.1.max_energy = a.max_energy ∧
    r.1.step_cost = a.step_cost ∧ r.1.move_cost = a.move_cost ∧
    r.1.bite_power = a.bite_power ∧
    (r.1.energy = a.energy ∨
      r.1.energy = max (min (a.energy + d) a.max_energy) 0) := by
  by_cases hev : a.recycling = Recycling.EVERLASTING
  · rw [update_energy_everlasting a d src hev] at h
    obtain rfl := Option.some.inj h
    exact ⟨rfl, rfl, rfl, rfl, rfl, Or.inl rfl⟩
  · rcases h3 : npIdx3 (1 + (src.getD a.position).1 - a.position.1) with _ | gi
    · exfalso
      have hnone : a.update_energy d src = none := by
        unfold Agent.update_energy
        rw [if_neg hev]
        simp [h3]
      rw [hnone] at h
      cases h
    · rcases h4 : npIdx3 (1 + (src.getD a.position).2 - a.position.2) with _ | gj
      · exfalso
        have hnone : a.update_energy d src = none := by
          unfold Agent.update_energy
          rw [if_neg hev]
          simp [h3, h4]
        rw [hnone] at h
        cases h
      · rw [update_energy_eq a d src hev gi gj h3 h4] at h
        obtain rfl := Option.some.inj h
        obtain ⟨f1, f2, f3, f4, f5, _, _, _, _, f10⟩ := updatedAgent_fields a d gi gj
        exact ⟨f1, f2, f4, f5, f3, Or.inr f10⟩

/-- Replacing an arena entry by an agent in the same position with a
legally bounded energy, mirroring the new energy into the map at that
position, preserves well-formedness. -/
theorem Wf_set_energy (W : World) (i : ℕ) (a' : Agent)
    (hi : i < W.arena.length) (hW : Wf W)
    (hpos : a'.position = (W.agentAt i).position)
    (hM : a'.max_energy = (W.agentAt i).max_energy)
    (hsc : a'.step_cost = (W.agentAt i).step_cost)
    (hmc : a'.move_cost = (W.agentAt i).move_cost)
    (hbp : a'.bite_power = (W.agentAt i).bite_power)
    (hE0 : 0 ≤ a'.energy) (hE1 : a'.energy ≤ a'.max_energy) :
    Wf { W with arena := W.arena.set i a',
                energy_map := fun q =>
                  if q = a'.position then a'.energy else W.energy_map q } := by
  set W2 : World := ({ W with arena := W.arena.set i a', energy_map := fun q => if q = a'.position then a'.energy else W.energy_map q } : World) with hW2
  have hself : W2.agentAt i = a' := getD_set_self _ _ _ hi
  have hother : ∀ j, j ≠ i → W2.agentAt j = W.agentAt j :=
    fun j hj => getD_set_ne _ _ _ _ fun h => hj h.symm
  have hlen : W2.arena.length = W.arena.length := by
    show (W.arena.set i a').length = W.arena.length
    simp
  constructor
  · exact hW.width_pos
  · exact hW.height_pos
  · intro k
    rw [hlen]
    exact hW.order_iff k
  · exact hW.order_nodup
  · intro j hj
    rw [hlen] at hj
    by_cases hji : j = i
    · subst hji
      rw [hself, hpos]
      exact hW.agent_placed j hj
    · rw [hother j hji]
      exact hW.agent_placed j hj
  · intro p k hk
    have hk' : W.things p = some (Occ.agent k) := hk
    obtain ⟨hk1, hk2⟩ := hW.grid_agents p k hk'
    refine ⟨by rw [hlen]; exact hk1, ?_⟩
    by_cases hki : k = i
    · subst hki
      rw [hself, hpos]
      exact hk2
    · rw [hother k hki]
      exact hk2
  · intro p
    show (if p = a'.position then a'.energy else W.energy_map p)
      = energyOfOcc W2 (W.things p)
    by_cases hp : p = a'.position
    · rw [if_pos hp]
      have hpp : W.things p = some (Occ.agent i) := by
        rw [hp, hpos]
        exact (hW.agent_placed i hi).2
      rw [hpp]
      show a'.energy = (W2.agentAt i).energy
      rw [hself]
    · rw [if_neg hp, hW.energy_mirror p]
      cases hth : W.things p with
      | none => rfl
      | some o =>
        cases o with
        | block b => rfl
        | agent k =>
          obtain ⟨hk1, hk2⟩ := hW.grid_agents p k hth
          have hki : k ≠ i := by
            intro hki
            subst hki
            exact hp (hk2.symm.trans hpos.symm)
          show (W.agentAt k).energy = (W2.agentAt k).energy
          rw [hother k hki]
  · intro p hnb
    exact hW.grid_bounded p hnb
  · intro j hj
    rw [hlen] at hj
    by_cases hji : j = i
    · subst hji
      rw [hself]
      exact ⟨hE0, hE1⟩
    · rw [hother j hji]
      exact hW.energy_bounds j hj
  · intro j hj
    rw [hlen] at hj
    by_cases hji : j = i
    · subst hji
      rw [hself, hsc, hmc, hbp]
      exact hW.cost_signs j hj
    · rw [hother j hji]
      exact hW.cost_signs j hj

/-- A completed `update_agent_energy` call (charge or respawn) preserves
well-formedness and the world's shape. -/
theorem Wf_update_agent_energy (W : World) (i : ℕ) (d : Option ℚ)
    (src : Option Pos) (W2 : World) (dd : ℚ)
    (hi : i < W.arena.length) (hW : Wf W)
    (h : W.update_agent_energy i d src = some (W2, dd)) :
    Wf W2 ∧ sameShape W2 W := by
  have hM0 : 0 ≤ (W.agentAt i).max_energy :=
    le_trans (hW.energy_bounds i hi).1 (hW.energy_bounds i hi).2
  cases d with
  | none =>
    have hre : W.update_agent_energy i none src =
        some ({ W with arena := W.arena.set i (W.agentAt i).respawn.1,
                       energy_map := fun q =>
                         if q = (W.agentAt i).respawn.1.position
                         then (W.agentAt i).respawn.1.energy
                         else W.energy_map q },
              (W.agentAt i).respawn.2) := rfl
    rw [hre] at h
    have hp := Option.some.inj h
    rw [Prod.mk.injEq] at hp
    obtain ⟨hWeq, -⟩ := hp
    subst hWeq
    refine ⟨Wf_set_energy W i (W.agentAt i).respawn.1 hi hW rfl rfl rfl rfl rfl
      ?_ ?_, ?_⟩
    · show (0 : ℚ) ≤ (W.agentAt i).max_energy
      exact hM0
    · show (W.agentAt i).max_energy ≤ (W.agentAt i).max_energy
      exact le_refl _
    · refine ⟨?_, rfl, rfl, rfl⟩
      show (W.arena.set i _).length = W.arena.length
      simp
  | some dv =>
    rcases ha : (W.agentAt i).update_energy dv src with _ | r
    · exfalso
      simp [World.update_agent_energy, ha] at h
    · rw [update_agent_energy_eq W i dv src r.1 r.2 (by rw [ha])] at h
      have hp := Option.some.inj h
      rw [Prod.mk.injEq] at hp
      obtain ⟨hWeq, -⟩ := hp
      subst hWeq
      obtain ⟨f1, f2, f3, f4, f5, f6⟩ := update_energy_core (W.agentAt i) dv src r ha
      refine ⟨Wf_set_energy W i r.1 hi hW f1 f2 f3 f4 f5 ?_ ?_, ?_⟩
      · rcases f6 with h6 | h6
        · rw [h6]
          exact (hW.energy_bounds i hi).1
        · rw [h6]
          exact le_max_right _ _
      · rcases f6 with h6 | h6
        · rw [h6, f2]
          exact (hW.energy_bounds i hi).2
        · rw [h6, f2]
          exact max_le (min_le_right _ _) hM0
      · refine ⟨?_, rfl, rfl, rfl⟩
        show (W.arena.set i _).length = W.arena.length
        simp

/-- `tile_is_empty` unpacked: in bounds and unoccupied. -/
theorem tile_is_empty_iff (W : World) (p : Pos) :
    W.tile_is_empty p = true ↔ inBounds W p ∧ W.things p = none := by
  unfold World.tile_is_empty
  split
  · rename_i hib
    simp [Option.isNone_iff_eq_none, hib]
  · rename_i hib
    simp [hib]

/-- A tile returned by `find_free_tile` is empty. -/
theorem find_free_tile_empty (W : World) (draw : ℕ × ℕ) (p : Pos)
    (h : W.find_free_tile draw = some p) : W.tile_is_empty p = true := by
  simp only [World.find_free_tile] at h
  by_cases hs : W.tile_is_empty (((draw.1 % W.width : ℕ) : ℤ),
      ((draw.2 % W.height : ℕ) : ℤ)) = true
  · rw [if_pos hs] at h
    obtain rfl := Option.some.inj h
    exact hs
  · rw [if_neg hs] at h
    exact scanFree_some_empty W _ _ _ _ h

/-- Relocating an agent onto an empty in-bounds tile (or onto its own
tile) preserves well-formedness. -/
theorem Wf_relocateAgent (W : World) (i : ℕ) (p : Pos)
    (hi : i < W.arena.length) (hW : Wf W) (hp : inBounds W p)
    (hfree : W.things p = none ∨ p = (W.agentAt i).position) :
    Wf (W.relocateAgent i p) := by
  obtain ⟨hself, hother, hthp, hthq, hlen, horder2, hwidth, hheight⟩ :=
    relocateAgent_parts W i p hi
  have hthings : ∀ q, (W.relocateAgent i p).things q =
      if q = p then some (Occ.agent i)
      else if q = (W.agentAt i).position then none else W.things q :=
    fun q => rfl
  have hem : ∀ q, (W.relocateAgent i p).energy_map q =
      if q = p then (W.agentAt i).energy
      else if q = (W.agentAt i).position then 0 else W.energy_map q :=
    fun q => rfl
  constructor
  · exact hW.width_pos
  · exact hW.height_pos
  · intro k
    rw [horder2, hlen]
    exact hW.order_iff k
  · rw [horder2]
    exact hW.order_nodup
  · intro j hj
    rw [hlen] at hj
    by_cases hji : j = i
    · subst hji
      rw [hself]
      exact ⟨hp, hthp⟩
    · rw [hother j hji]
      have hpj := hW.agent_placed j hj
      have hne1 : (W.agentAt j).position ≠ p := by
        intro hq
        rcases hfree with hfr | hfr
        · rw [← hq] at hfr
          rw [hpj.2] at hfr
          cases hfr
        · rw [hfr] at hq
          have h1 := hpj.2
          rw [hq, (hW.agent_placed i hi).2] at h1
          exact hji (Occ.agent.inj (Option.some.inj h1)).symm
      have hne2 : (W.agentAt j).position ≠ (W.agentAt i).position := by
        intro hq
        have h1 := hpj.2
        rw [hq, (hW.agent_placed i hi).2] at h1
        exact hji (Occ.agent.inj (Option.some.inj h1)).symm
      refine ⟨hpj.1, ?_⟩
      rw [hthq _ hne1 hne2]
      exact hpj.2
  · intro q k hk
    rw [hthings q] at hk
    by_cases hq1 : q = p
    · rw [if_pos hq1] at hk
      obtain rfl := Occ.agent.inj (Option.some.inj hk)
      refine ⟨by rw [hlen]; exact hi, ?_⟩
      rw [hself]
      exact hq1.symm
    · rw [if_neg hq1] at hk
      by_cases hq2 : q = (W.agentAt i).position
      · rw [if_pos hq2] at hk
        cases hk
      · rw [if_neg hq2] at hk
        obtain ⟨hk1, hk2⟩ := hW.grid_agents q k hk
        have hki : k ≠ i := by
          intro hki
          subst hki
          exact hq2 hk2.symm
        refine ⟨by rw [hlen]; exact hk1, ?_⟩
        rw [hother k hki]
        exact hk2
  · intro q
    rw [hem q, hthings q]
    by_cases hq1 : q = p
    · rw [if_pos hq1, if_pos hq1]
      show (W.agentAt i).energy = ((W.relocateAgent i p).agentAt i).energy
      rw [hself]
    · rw [if_neg hq1, if_neg hq1]
      by_cases hq2 : q = (W.agentAt i).position
      · rw [if_pos hq2, if_pos hq2]
        rfl
      · rw [if_neg hq2, if_neg hq2, hW.energy_mirror q]
        cases hth2 : W.things q with
        | none => rfl
        | some o =>
          cases o with
          | block b => rfl
          | agent k =>
            obtain ⟨hk1, hk2⟩ := hW.grid_agents q k hth2
            have hki : k ≠ i := fun hki => hq2 (by rw [← hki]; exact hk2.symm)
            show (W.agentAt k).energy = ((W.relocateAgent i p).agentAt k).energy
            rw [hother k hki]
  · intro q hnb
    have hq1 : q ≠ p := fun hq => hnb (by rw [hq]; exact hp)
    have hq2 : q ≠ (W.agentAt i).position :=
      fun hq => hnb (by rw [hq]; exact (hW.agent_placed i hi).1)
    rw [hthings q, if_neg hq1, if_neg hq2]
    exact hW.grid_bounded q hnb
  · intro j hj
    rw [hlen] at hj
    by_cases hji : j = i
    · subst hji
      rw [hself]
      exact hW.energy_bounds j hj
    · rw [hother j hji]
      exact hW.energy_bounds j hj
  · intro j hj
    rw [hlen] at hj
    by_cases hji : j = i
    · subst hji
      rw [hself]
      exact hW.cost_signs j hj
    · rw [hother j hji]
      exact hW.cost_signs j hj

theorem sameShape_relocate (W : World) (i : ℕ) (p : Pos) :
    sameShape (W.relocateAgent i p) W := by
  refine ⟨?_, rfl, rfl, rfl⟩
  show (W.arena.set i _).length = W.arena.length
  simp

/-- Any `place_at` call on a placed agent preserves well-formedness: the
explicit target is only taken when empty or the agent's own tile, and the
random fallback only yields empty tiles. -/
theorem Wf_place_at (W : World) (i : ℕ) (pos : Option Pos) (rel : Bool)
    (draw : ℕ × ℕ) (hi : i < W.arena.length) (hW : Wf W) :
    Wf (W.place_at i pos rel draw).1 ∧
      sameShape (W.place_at i pos rel draw).1 W := by
  have hreloc : ∀ p, W.tile_is_empty p = true ∨ p = (W.agentAt i).position →
      Wf (W.relocateAgent i p) ∧ sameShape (W.relocateAgent i p) W := by
    intro p hor
    refine ⟨Wf_relocateAgent W i p hi hW ?_ ?_, sameShape_relocate W i p⟩
    · rcases hor with hor | hor
      · exact ((tile_is_empty_iff W p).mp hor).1
      · rw [hor]
        exact (hW.agent_placed i hi).1
    · rcases hor with hor | hor
      · exact Or.inl ((tile_is_empty_iff W p).mp hor).2
      · exact Or.inr hor
  rcases pos with _ | p
  · rcases hf : W.find_free_tile draw with _ | q
    · simp only [World.place_at, hf]
      exact ⟨hW, sameShape_refl W⟩
    · simp only [World.place_at, hf]
      exact hreloc q (Or.inl (find_free_tile_empty W draw q hf))
  · by_cases hor : W.tile_is_empty p = true ∨ p = (W.agentAt i).position
    · rw [place_at_success W i p rel draw hor]
      exact hreloc p hor
    · cases rel with
      | false =>
        rw [place_at_fail W i p draw hor]
        exact ⟨hW, sameShape_refl W⟩
      | true =>
        rcases hf : W.find_free_tile draw with _ | q
        · have heq : W.place_at i (some p) true draw = (W, true) := by
            unfold World.place_at
            dsimp only
            rw [if_neg hor]
            simp [hf]
          rw [heq]
          exact ⟨hW, sameShape_refl W⟩
        · have heq : W.place_at i (some p) true draw =
              (W.relocateAgent i q, true) := by
            unfold World.place_at
            dsimp only
            rw [if_neg hor]
            simp [hf]
          rw [heq]
          exact hreloc q (Or.inl (find_free_tile_empty W draw q hf))

/-- A completed `execute_action` preserves well-formedness and the
world's shape, whatever the action. -/
theorem Wf_execute_action (er : ActionType → ℚ) (W : World) (i : ℕ)
    (act : Act) (Wr : World) (hi : i < W.arena.length) (hW : Wf W)
    (h : W.execute_action er i act = some Wr) :
    Wf Wr ∧ sameShape Wr W := by
  obtain ⟨ty, dx, dy⟩ := act
  by_cases hgate : (W.agentAt i).energy + (W.agentAt i).move_cost * er ty +
      (W.agentAt i).step_cost < 0
  · rw [execute_action_gate er W i (ty, dx, dy) hgate] at h
    obtain ⟨r, hr, hset⟩ := Option.map_eq_some'.mp h
    obtain ⟨hWr, hshr⟩ := Wf_update_agent_energy W i
      (some ((0 : ℚ) + (W.agentAt i).step_cost)) none r.1 r.2 hi hW (by rw [hr])
    subst hset
    have hilen : i < r.1.arena.length := by
      rw [hshr.1]
      exact hi
    exact ⟨Wf_setSuccess r.1 i false hilen hWr,
      sameShape_trans (sameShape_setSuccess r.1 i false) hshr⟩
  · cases ty with
    | NONE =>
      rw [execute_action_rest er W i dx dy hgate] at h
      obtain ⟨r, hr, hset⟩ := Option.map_eq_some'.mp h
      obtain ⟨hWr, hshr⟩ := Wf_update_agent_energy W i
        (some ((W.agentAt i).move_cost * er ActionType.NONE +
          (W.agentAt i).step_cost)) none r.1 r.2 hi hW (by rw [hr])
      subst hset
      have hilen : i < r.1.arena.length := by
        rw [hshr.1]
        exact hi
      exact ⟨Wf_setSuccess r.1 i true hilen hWr,
        sameShape_trans (sameShape_setSuccess r.1 i true) hshr⟩
    | MOVE =>
      rw [execute_action_move er W i dx dy hgate] at h
      obtain ⟨r, hr, hset⟩ := Option.map_eq_some'.mp h
      obtain ⟨hWp, hshp⟩ := Wf_place_at W i
        (some ((W.agentAt i).position.1 + dx, (W.agentAt i).position.2 + dy))
        false (0, 0) hi hW
      obtain ⟨hWr, hshr⟩ := Wf_update_agent_energy
        (W.place_at i
          (some ((W.agentAt i).position.1 + dx, (W.agentAt i).position.2 + dy))
          false (0, 0)).1 i
        (some ((if (W.place_at i
            (some ((W.agentAt i).position.1 + dx, (W.agentAt i).position.2 + dy))
            false (0, 0)).2 then (W.agentAt i).move_cost * er ActionType.MOVE
          else 0) + (W.agentAt i).step_cost)) none r.1 r.2
        (by rw [hshp.1]; exact hi) hWp (by rw [hr])
      subst hset
      have hilen : i < r.1.arena.length := by
        rw [hshr.1, hshp.1]
        exact hi
      exact ⟨Wf_setSuccess r.1 i _ hilen hWr,
        sameShape_trans (sameShape_setSuccess r.1 i _)
          (sameShape_trans hshr hshp)⟩
    | EAT =>
      rw [execute_action_eat er W i dx dy hgate] at h
      obtain ⟨r1, hr1, h2⟩ := Option.bind_eq_some.mp h
      obtain ⟨hW1, hsh1⟩ := Wf_update_agent_energy W i
        (some (W.agentAt i).step_cost) none r1.1 r1.2 hi hW (by rw [hr1])
      obtain ⟨prey, hprey, h3⟩ := Option.bind_eq_some.mp h2
      rcases prey with _ | o
      · have h3' : some (r1.1.setSuccess i false) = some Wr := h3
        obtain rfl := Option.some.inj h3'
        have hilen : i < r1.1.arena.length := by
          rw [hsh1.1]
          exact hi
        exact ⟨Wf_setSuccess r1.1 i false hilen hW1,
          sameShape_trans (sameShape_setSuccess r1.1 i false) hsh1⟩
      · rcases o with j | b
        · have h3' : (if j ∈ r1.1.order then
              (r1.1.update_agent_energy j
                  (some (-(min (r1.1.agentAt i).bite_power
                    ((r1.1.agentAt i).max_energy - (r1.1.agentAt i).energy))))
                  (some (r1.1.agentAt i).position)).bind fun r2 =>
                (r2.1.update_agent_energy i
                    (some ((W.agentAt i).move_cost * er ActionType.EAT + -r2.2))
                    (some (r2.1.agentAt j).position)).map fun r3 =>
                  r3.1.setSuccess i
                    (decide (0 < (W.agentAt i).move_cost * er ActionType.EAT +
                      -r2.2))
            else some (r1.1.setSuccess i false)) = some Wr := h3
          by_cases hj : j ∈ r1.1.order
          · rw [if_pos hj] at h3'
            obtain ⟨r2, hr2, h4⟩ := Option.bind_eq_some.mp h3'
            have hjlen : j < r1.1.arena.length := (hW1.order_iff j).mp hj
            obtain ⟨hW2, hsh2⟩ := Wf_update_agent_energy r1.1 j
              (some (-(min (r1.1.agentAt i).bite_power
                ((r1.1.agentAt i).max_energy - (r1.1.agentAt i).energy))))
              (some (r1.1.agentAt i).position) r2.1 r2.2 hjlen hW1 (by rw [hr2])
            obtain ⟨r3, hr3, h5⟩ := Option.map_eq_some'.mp h4
            obtain ⟨hW3, hsh3⟩ := Wf_update_agent_energy r2.1 i
              (some ((W.agentAt i).move_cost * er ActionType.EAT + -r2.2))
              (some (r2.1.agentAt j).position) r3.1 r3.2
              (by rw [hsh2.1, hsh1.1]; exact hi) hW2 (by rw [hr3])
            subst h5
            have hilen : i < r3.1.arena.length := by
              rw [hsh3.1, hsh2.1, hsh1.1]
              exact hi
            exact ⟨Wf_setSuccess r3.1 i _ hilen hW3,
              sameShape_trans (sameShape_setSuccess r3.1 i _)
                (sameShape_trans hsh3 (sameShape_trans hsh2 hsh1))⟩
          · rw [if_neg hj] at h3'
            obtain rfl := Option.some.inj h3'
            have hilen : i < r1.1.arena.length := by
              rw [hsh1.1]
              exact hi
            exact ⟨Wf_setSuccess r1.1 i false hilen hW1,
              sameShape_trans (sameShape_setSuccess r1.1 i false) hsh1⟩
        · have h3' : some (r1.1.setSuccess i false) = some Wr := h3
          obtain rfl := Option.some.inj h3'
          have hilen : i < r1.1.arena.length := by
            rw [hsh1.1]
            exact hi
          exact ⟨Wf_setSuccess r1.1 i false hilen hW1,
            sameShape_trans (sameShape_setSuccess r1.1 i false) hsh1⟩

/-- A completed act phase preserves well-formedness and the world's
shape. -/
theorem Wf_actPhase (er : ActionType → ℚ) (policy : ℕ → World → Act) :
    ∀ (l : List ℕ) (W Wr : World), (∀ j ∈ l, j < W.arena.length) → Wf W →
    actPhase er policy l W = some Wr → Wf Wr ∧ sameShape Wr W := by
  intro l
  induction l with
  | nil =>
    intro W Wr _ hW h
    obtain rfl := Option.some.inj h
    exact ⟨hW, sameShape_refl W⟩
  | cons i rest ih =>
    intro W Wr hbound hW h
    simp only [actPhase] at h
    by_cases halive : (W.agentAt i).is_alive
    · rw [if_pos halive] at h
      obtain ⟨W1, hex, hrest⟩ := Option.bind_eq_some.mp h
      have hi : i < W.arena.length := hbound i (List.mem_cons_self i rest)
      have hWa : Wf (W.setChosen i (policy i W)) :=
        Wf_setChosen W i (policy i W) hi hW
      obtain ⟨hW1, hsh1⟩ := Wf_execute_action er (W.setChosen i (policy i W)) i
        (policy i W) W1
        (by rw [(sameShape_setChosen W i (policy i W)).1]; exact hi) hWa hex
      have hW1m : Wf (W1.mapAgent i Agent.update_after_action) :=
        Wf_mapAgent_core W1 i Agent.update_after_action
          (by rw [hsh1.1, (sameShape_setChosen W i (policy i W)).1]; exact hi)
          rfl rfl rfl rfl rfl rfl hW1
      obtain ⟨hW2, hsh2⟩ := ih (W1.mapAgent i Agent.update_after_action) Wr
        (fun j hj => by
          rw [(sameShape_mapAgent W1 i Agent.update_after_action).1, hsh1.1,
            (sameShape_setChosen W i (policy i W)).1]
          exact hbound j (List.mem_cons_of_mem i hj)) hW1m hrest
      exact ⟨hW2, sameShape_trans hsh2
        (sameShape_trans (sameShape_mapAgent W1 i Agent.update_after_action)
          (sameShape_trans hsh1 (sameShape_setChosen W i (policy i W))))⟩
    · rw [if_neg halive] at h
      exact ih W Wr (fun j hj => hbound j (List.mem_cons_of_mem i hj)) hW h

/-- The pre-step reset fold preserves well-formedness and shape. -/
theorem Wf_preFold :
    ∀ (l : List ℕ) (W : World), Wf W →
    Wf (l.foldl (fun Wc j => Wc.mapAgent j Agent.agent_pre_step) W) ∧
    sameShape (l.foldl (fun Wc j => Wc.mapAgent j Agent.agent_pre_step) W) W := by
  intro l
  induction l with
  | nil => intro W hW; exact ⟨hW, sameShape_refl W⟩
  | cons i rest ih =>
    intro W hW
    simp only [List.foldl_cons]
    by_cases hi : i < W.arena.length
    · have h1 : Wf (W.mapAgent i Agent.agent_pre_step) :=
        Wf_mapAgent_core W i Agent.agent_pre_step hi rfl rfl rfl rfl rfl rfl hW
      obtain ⟨h2, h3⟩ := ih _ h1
      exact ⟨h2, sameShape_trans h3
        (sameShape_mapAgent W i Agent.agent_pre_step)⟩
    · have hid : W.mapAgent i Agent.agent_pre_step = W := by
        show ({ W with arena := W.arena.set i _ } : World) = W
        rw [List.set_eq_of_length_le (by omega)]
    -- out-of-range writes are the identity
      rw [hid]
      exact ih W hW

/-- world.py `pre_step` preserves well-formedness and shape. -/
theorem Wf_pre_step (W : World) (hW : Wf W) :
    Wf W.pre_step ∧ sameShape W.pre_step W :=
  Wf_preFold W.order W hW

/-- A completed post-step per-agent pass preserves well-formedness and
shape. -/
theorem Wf_postLoop (rnd : ℕ → ℕ × ℕ) :
    ∀ (l : List ℕ) (W : World) (k cnt : ℕ) (s : World × ℕ × ℕ),
    (∀ j ∈ l, j < W.arena.length) → Wf W →
    postLoop rnd l (W, k, cnt) = some s →
    Wf s.1 ∧ sameShape s.1 W := by
  intro l
  induction l with
  | nil =>
    intro W k cnt s _ hW h
    obtain rfl := Option.some.inj h
    exact ⟨hW, sameShape_refl W⟩
  | cons i rest ih =>
    intro W k cnt s hbound hW h
    simp only [postLoop] at h
    have hi : i < W.arena.length := hbound i (List.mem_cons_self i rest)
    by_cases hdead : (W.agentAt i).energy ≤ 0 ∧
        (W.agentAt i).recycling = Recycling.RESPAWNABLE
    · rw [if_pos hdead] at h
      obtain ⟨r, hr, h2⟩ := Option.bind_eq_some.mp h
      obtain ⟨hWr, hshr⟩ := Wf_update_agent_energy W i none none r.1 r.2 hi hW
        (by rw [hr])
      obtain ⟨hWp, hshp⟩ := Wf_place_at r.1 i none false (rnd k)
        (by rw [hshr.1]; exact hi) hWr
      obtain ⟨hWs, hshs⟩ := ih (r.1.place_at i none false (rnd k)).1 (k + 1)
        (if ((r.1.place_at i none false (rnd k)).1.agentAt i).is_alive
          then cnt + 1 else cnt) s
        (fun j hj => by
          rw [hshp.1, hshr.1]
          exact hbound j (List.mem_cons_of_mem i hj)) hWp h2
      exact ⟨hWs, sameShape_trans hshs (sameShape_trans hshp hshr)⟩
    · rw [if_neg hdead] at h
      have h1 : Wf (W.mapAgent i Agent.agent_post_step) :=
        Wf_mapAgent_core W i Agent.agent_post_step hi rfl rfl rfl rfl rfl rfl hW
      obtain ⟨hWs, hshs⟩ := ih (W.mapAgent i Agent.agent_post_step) k
        (if ((W.mapAgent i Agent.agent_post_step).agentAt i).is_alive
          then cnt + 1 else cnt) s
        (fun j hj => by
          rw [(sameShape_mapAgent W i Agent.agent_post_step).1]
          exact hbound j (List.mem_cons_of_mem i hj)) h1 h
      exact ⟨hWs, sameShape_trans hshs
        (sameShape_mapAgent W i Agent.agent_post_step)⟩

/-- The stable insertion permutes. -/
theorem insertDesc_perm (W : World) (i : ℕ) :
    ∀ l, List.Perm (insertDesc W i l) (i :: l) := by
  intro l
  induction l with
  | nil => exact List.Perm.refl _
  | cons j rest ih =>
    simp only [insertDesc]
    split
    · exact (List.Perm.cons j ih).trans (List.Perm.swap i j rest)
    · exact List.Perm.refl _

/-- The energy re-sort permutes the ranking. -/
theorem sortDesc_perm (W : World) : ∀ l, List.Perm (sortDesc W l) l := by
  intro l
  induction l with
  | nil => exact List.Perm.refl _
  | cons i rest ih =>
    simp only [sortDesc]
    exact (insertDesc_perm W i (sortDesc W rest)).trans (List.Perm.cons i ih)

/-- Re-sorting the ranking and refreshing the step bookkeeping preserves
well-formedness. -/
theorem Wf_resort (W : World) (t : ℚ) (c n : ℕ) (hW : Wf W) :
    Wf { W with total_energy := t, order := sortDesc W W.order,
                current_step := c, n_active_agents := n } := by
  obtain ⟨h1, h2, h3, h4, h5, h6, h7, h8, h9, h10⟩ := hW
  refine ⟨h1, h2, ?_, ?_, h5, h6, h7, h8, h9, h10⟩
  · intro k
    show k ∈ sortDesc W W.order ↔ k < W.arena.length
    rw [(sortDesc_perm W W.order).mem_iff]
    exact h3 k
  · show (sortDesc W W.order).Nodup
    exact (sortDesc_perm W W.order).nodup_iff.mpr h4

/-- The pause flags are invisible to well-formedness. -/
theorem Wf_flags (W : World) (pa sb : Bool) (hW : Wf W) :
    Wf { W with paused := pa, step_by_step := sb } := by
  obtain ⟨h1, h2, h3, h4, h5, h6, h7, h8, h9, h10⟩ := hW
  exact ⟨h1, h2, h3, h4, h5, h6, h7, h8, h9, h10⟩

/-- The final bookkeeping of `post_step` (including a possible pause)
preserves well-formedness. -/
theorem Wf_post_step_core (W : World) (t : ℚ) (n : ℕ) (hW : Wf W) :
    Wf (if ({ W with
              total_energy := t,
              order := sortDesc W W.order,
              current_step := W.current_step + 1,
              n_active_agents := n } : World).pause_step
          = some ({ W with
                    total_energy := t,
                    order := sortDesc W W.order,
                    current_step := W.current_step + 1,
                    n_active_agents := n } : World).current_step
        then { ({ W with
                  total_energy := t,
                  order := sortDesc W W.order,
                  current_step := W.current_step + 1,
                  n_active_agents := n } : World) with
               paused := true, step_by_step := false }
        else { W with
               total_energy := t,
               order := sortDesc W W.order,
               current_step := W.current_step + 1,
               n_active_agents := n }) := by
  split
  · exact Wf_flags _ true false (Wf_resort W t (W.current_step + 1) n hW)
  · exact Wf_resort W t (W.current_step + 1) n hW

/-- A completed `post_step` yields a well-formed world. -/
theorem Wf_post_step (rnd : ℕ → ℕ × ℕ) (W Wr : World) (hW : Wf W)
    (h : W.post_step rnd = some Wr) : Wf Wr := by
  unfold World.post_step at h
  obtain ⟨s, hs, h2⟩ := Option.map_eq_some'.mp h
  obtain ⟨hWs, -⟩ := Wf_postLoop rnd W.order W 0 0 s
    (fun j hj => (hW.order_iff j).mp hj) hW hs
  rw [← h2]
  exact Wf_post_step_core s.1 (gridTotal s.1) s.2.2 hWs

/-- The 1×1 witness world is well-formed. -/
theorem Wf_c1W : Wf c1W := by
  constructor
  · decide
  · decide
  · intro k
    show k ∈ [0] ↔ k < 1
    rw [List.mem_singleton]
    omega
  · show ([0] : List ℕ).Nodup
    decide
  · intro k hk
    have hk1 : k = 0 := by
      have h1 : k < 1 := hk
      omega
    subst hk1
    exact ⟨by decide, by decide⟩
  · intro p k hk
    have hk' : (if p = ((0 : ℤ), (0 : ℤ)) then some (Occ.agent 0) else none)
        = some (Occ.agent k) := hk
    by_cases hp : p = ((0 : ℤ), (0 : ℤ))
    · rw [if_pos hp] at hk'
      obtain rfl := Occ.agent.inj (Option.some.inj hk')
      refine ⟨by decide, ?_⟩
      rw [hp]
      rfl
    · rw [if_neg hp] at hk'
      cases hk'
  · intro p
    show (if p = ((0 : ℤ), (0 : ℤ)) then (4 : ℚ) else 0)
      = energyOfOcc c1W
          (if p = ((0 : ℤ), (0 : ℤ)) then some (Occ.agent 0) else none)
    by_cases hp : p = ((0 : ℤ), (0 : ℤ))
    · rw [if_pos hp, if_pos hp]
      rfl
    · rw [if_neg hp, if_neg hp]
      rfl
  · intro p hnb
    have hp : p ≠ ((0 : ℤ), (0 : ℤ)) := by
      intro hp
      exact hnb (by rw [hp]; decide)
    show (if p = ((0 : ℤ), (0 : ℤ)) then some (Occ.agent 0) else none) = none
    rw [if_neg hp]
  · intro k hk
    have hk1 : k = 0 := by
      have h1 : k < 1 := hk
      omega
    subst hk1
    constructor
    · show (0 : ℚ) ≤ 4
      norm_num
    · show (4 : ℚ) ≤ 10
      norm_num
  · intro k hk
    have hk1 : k = 0 := by
      have h1 : k < 1 := hk
      omega
    subst hk1
    refine ⟨?_, ?_, ?_⟩
    · show (-1 : ℚ) ≤ 0
      norm_num
    · show (-1 : ℚ) ≤ 0
      norm_num
    · show (0 : ℚ) ≤ 1
      norm_num

-- MARKER-LEMMAS-END

/-! ### Claim theorems -/

/-- C7 counterexample: the claim says `respawn` does NOT reset the
cumulative steps counter, but `respawn` calls `initialize_state`, which
sets `steps = 0`: a RESPAWNABLE agent dead after 5 steps respawns with a
steps counter of 0, not 5. -/
theorem c7_steps_reset_cex :
    c7Agent.recycling = Recycling.RESPAWNABLE ∧ c7Agent.energy ≤ 0 ∧
    c7Agent.steps = 5 ∧ (c7Agent.respawn).1.steps = 0 ∧
    (c7Agent.respawn).1.steps ≠ c7Agent.steps := by
  refine ⟨rfl, by with_unfolding_all decide, rfl, rfl, by with_unfolding_all decide⟩

/-- C7 (amended): for every RESPAWNABLE agent that is dead (energy ≤ 0),
`respawn` sets its energy to `max_energy` and returns the delta
`max_energy - previous energy`, restores the original color and
intensity, zeroes both 3×3 touch maps and the other per-tick transient
state — and, contrary to the original claim, also resets the cumulative
steps counter to 0 (the lifetime step count does not survive a respawn). -/
theorem c7_respawn_correct (a : Agent)
    (hrec : a.recycling = Recycling.RESPAWNABLE) (hdead : a.energy ≤ 0) :
    (a.respawn).1.energy = a.max_energy ∧
    (a.respawn).2 = a.max_energy - a.energy ∧
    (a.respawn).1.color = a.original_color ∧
    (a.respawn).1.intensity = a.original_intensity ∧
    (a.respawn).1.negative_touch_map = tmZero ∧
    (a.respawn).1.positive_touch_map = tmZero ∧
    (a.respawn).1.current_energy_delta = 0 ∧
    (a.respawn).1.chosen_action = VOID_ACTION ∧
    (a.respawn).1.chosen_action_success = true ∧
    (a.respawn).1.steps = 0 :=
  ⟨rfl, rfl, rfl, rfl, rfl, rfl, rfl, rfl, rfl, rfl⟩

/-- C7 witness: the amended respawn theorem, instantiated on the concrete
dead RESPAWNABLE agent. -/
theorem c7_respawn_correct_witness :
    (c7Agent.respawn).1.energy = c7Agent.max_energy ∧
    (c7Agent.respawn).1.color = c7Agent.original_color ∧
    (c7Agent.respawn).1.negative_touch_map = tmZero :=
  ⟨(c7_respawn_correct c7Agent rfl (by with_unfolding_all decide)).1,
   (c7_respawn_correct c7Agent rfl (by with_unfolding_all decide)).2.2.1,
   (c7_respawn_correct c7Agent rfl (by with_unfolding_all decide)).2.2.2.2.1⟩

/-- C8 counterexample: the claim (and spec) address the touch-map cell
`(1 + s.y - a.y, 1 + s.x - a.x)`, but things.py indexes
`touch_map[1 + s.x - a.x, 1 + s.y - a.y]`: for the agent at (0, 0)
losing 1 energy to a source at (1, 0), the actual delta -1 lands in
cell (2, 1), while the claim's cell (1, 2) stays 0. -/
theorem c8_touch_index_cex :
    ((c8Agent.update_energy (-1) (some (1, 0))).getD
        (c8Agent, 0)).1.negative_touch_map 1 2 = 0 ∧
    ((c8Agent.update_energy (-1) (some (1, 0))).getD
        (c8Agent, 0)).1.negative_touch_map 2 1 = -1 ∧
    ((-1 : ℚ) = 0 → False) := by
  refine ⟨by with_unfolding_all decide, by with_unfolding_all decide,
    by with_unfolding_all decide⟩

/-- C8 (amended): for every non-EVERLASTING agent, an energy update with
actual (post-clamp) delta `used` from source `s` (defaulting to the
agent's own position) accumulates `used` into the touch-map cell indexed
`(1 + s.x - a.x, 1 + s.y - a.y)` — the x offset is the FIRST index, not
the second as the claim (and spec §4.3) writes — in the negative map when
`used` is negative and in the positive map when `used` is positive, the
3×3 map being centered on the agent with (1, 1) = self. -/
theorem c8_touch_map_cell (a : Agent) (d : ℚ) (src : Option Pos)
    (a' : Agent) (used : ℚ)
    (hrec : a.recycling ≠ Recycling.EVERLASTING) (i j : Fin 3)
    (hi : npIdx3 (1 + (src.getD a.position).1 - a.position.1) = some i)
    (hj : npIdx3 (1 + (src.getD a.position).2 - a.position.2) = some j)
    (hrun : a.update_energy d src = some (a', used)) :
    used = max (min (a.energy + d) a.max_energy) 0 - a.energy ∧
    (used < 0 →
      a'.negative_touch_map = tmBump a.negative_touch_map i j used ∧
      a'.positive_touch_map = a.positive_touch_map) ∧
    (0 < used →
      a'.positive_touch_map = tmBump a.positive_touch_map i j used ∧
      a'.negative_touch_map = a.negative_touch_map) := by
  rw [update_energy_eq a d src hrec i j hi hj] at hrun
  rw [Option.some.injEq, Prod.mk.injEq] at hrun
  obtain ⟨ha, hu⟩ := hrun
  subst ha hu
  refine ⟨rfl, fun h => ?_, fun h => ?_⟩
  · exact updatedAgent_touch_neg a d i j h
  · exact updatedAgent_touch_nonneg a d i j (le_of_lt h)

/-- C8 witness: the amended touch-map theorem instantiated on the
concrete agent at the origin losing 1 energy to the source (1, 0). -/
theorem c8_touch_map_cell_witness :
    ((c8Agent.update_energy (-1) (some (1, 0))).getD
        (c8Agent, 0)).1.negative_touch_map =
      tmBump c8Agent.negative_touch_map 2 1
        (max (min (c8Agent.energy + -1) c8Agent.max_energy) 0 - c8Agent.energy) := by
  have hrun : c8Agent.update_energy (-1) (some (1, 0)) =
      some (((c8Agent.update_energy (-1) (some (1, 0))).getD (c8Agent, 0)).1,
            ((c8Agent.update_energy (-1) (some (1, 0))).getD (c8Agent, 0)).2) := by
    with_unfolding_all rfl
  have h := c8_touch_map_cell c8Agent (-1) (some (1, 0)) _ _
    (by with_unfolding_all decide) 2 1
    (by with_unfolding_all decide) (by with_unfolding_all decide) hrun
  have hused := h.1
  refine (h.2.1 ?_).1.trans (by rw [← hused])
  rw [hused]
  with_unfolding_all decide

/-- C3 counterexample: for an EVERLASTING agent caught by the
affordability gate, the energy does not change "by exactly step_cost
(subject to the clamp)" as the claim states for every agent — it does not
change at all (here it stays 5 instead of the claimed clamp value 3). -/
theorem c3_gate_cex :
    (c3W.agentAt 0).energy + (c3W.agentAt 0).move_cost * specEnergyRatios ActionType.MOVE +
      (c3W.agentAt 0).step_cost < 0 ∧
    (((c3W.execute_action specEnergyRatios 0 (ActionType.MOVE, 1, 0)).getD c3W).agentAt
      0).energy = (c3W.agentAt 0).energy ∧
    ((((c3W.execute_action specEnergyRatios 0 (ActionType.MOVE, 1, 0)).getD c3W).agentAt
      0).energy =
      max (min ((c3W.agentAt 0).energy + (c3W.agentAt 0).step_cost) (c3W.agentAt 0).max_energy)
        0 → False) := by
  refine ⟨by with_unfolding_all decide, by with_unfolding_all decide,
    by with_unfolding_all decide⟩

/-- C3 (amended): for every acting non-EVERLASTING agent and every chosen
action kind, if `energy + move_cost * energy_ratio(kind) + step_cost < 0`
then the action is rejected: the success flag is false, `action_delta` is
forced to 0 so the energy changes by exactly `step_cost` subject to the
clamp to `[0, max_energy]`, and the agent's position and the grid
occupancy (`things` and the occupation bitmap) are not mutated.  (An
EVERLASTING agent's energy is not changed at all — the counterexample.) -/
theorem c3_gate_rejected (er : ActionType → ℚ) (W : World) (i : ℕ) (k : ActionType)
    (dx dy : ℤ) (W' : World) (hlen : i < W.arena.length)
    (hrec : (W.agentAt i).recycling ≠ Recycling.EVERLASTING)
    (hgate : (W.agentAt i).energy + (W.agentAt i).move_cost * er k +
      (W.agentAt i).step_cost < 0)
    (hrun : W.execute_action er i (k, dx, dy) = some W') :
    (W'.agentAt i).chosen_action_success = false ∧
    (W'.agentAt i).energy =
      max (min ((W.agentAt i).energy + (W.agentAt i).step_cost) (W.agentAt i).max_energy) 0 ∧
    (W'.agentAt i).position = (W.agentAt i).position ∧
    W'.things = W.things ∧
    W'.occupation_bitmap = W.occupation_bitmap := by
  rw [execute_action_gate er W i (k, dx, dy) hgate] at hrun
  have hupd := update_energy_eq (W.agentAt i) ((0 : ℚ) + (W.agentAt i).step_cost) none
    hrec 1 1 (npIdx3_self _) (npIdx3_self _)
  rw [update_agent_energy_eq W i _ none _ _ hupd] at hrun
  simp only [Option.map_some'] at hrun
  obtain rfl : _ = W' := Option.some.inj hrun
  have hlen2 : i < (W.arena.set i
      (updatedAgent (W.agentAt i) ((0 : ℚ) + (W.agentAt i).step_cost) 1 1)).length := by
    simpa using hlen
  have hA : ({ W with
      arena := W.arena.set i
        (updatedAgent (W.agentAt i) ((0 : ℚ) + (W.agentAt i).step_cost) 1 1),
      energy_map := fun q =>
        if q = (updatedAgent (W.agentAt i) ((0 : ℚ) + (W.agentAt i).step_cost) 1 1).position
        then (updatedAgent (W.agentAt i) ((0 : ℚ) + (W.agentAt i).step_cost) 1 1).energy
        else W.energy_map q } : World).agentAt i =
      updatedAgent (W.agentAt i) ((0 : ℚ) + (W.agentAt i).step_cost) 1 1 :=
    getD_set_self _ _ _ hlen
  rw [setSuccess_agentAt_self _ _ _ hlen2]
  rw [hA]
  have hf := updatedAgent_fields (W.agentAt i) ((0 : ℚ) + (W.agentAt i).step_cost) 1 1
  refine ⟨rfl, ?_, ?_, rfl, rfl⟩
  · show (updatedAgent (W.agentAt i) ((0 : ℚ) + (W.agentAt i).step_cost) 1 1).energy = _
    rw [hf.2.2.2.2.2.2.2.2.2, zero_add]
  · show (updatedAgent (W.agentAt i) ((0 : ℚ) + (W.agentAt i).step_cost) 1 1).position = _
    exact hf.1

/-- C3 witness: a non-EVERLASTING agent (energy 1, step_cost −2,
move_cost −3) attempting MOVE with ratio 1 is gated: success false,
energy clamped to 0, nothing moved. -/
theorem c3_gate_rejected_witness :
    (((c3Wit.execute_action specEnergyRatios 0 (ActionType.MOVE, 1, 0)).getD c3Wit).agentAt
      0).chosen_action_success = false ∧
    (((c3Wit.execute_action specEnergyRatios 0 (ActionType.MOVE, 1, 0)).getD c3Wit).agentAt
      0).energy = 0 := by
  have hrun : c3Wit.execute_action specEnergyRatios 0 (ActionType.MOVE, 1, 0) =
      some ((c3Wit.execute_action specEnergyRatios 0 (ActionType.MOVE, 1, 0)).getD c3Wit) := by
    with_unfolding_all rfl
  have h := c3_gate_rejected specEnergyRatios c3Wit 0 ActionType.MOVE 1 0 _
    (by with_unfolding_all decide) (by with_unfolding_all decide)
    (by with_unfolding_all decide) hrun
  exact ⟨h.1, h.2.1.trans (by with_unfolding_all decide)⟩

/-- C5 counterexample: REST does not succeed unconditionally — a living
agent with energy 1 and step_cost −2 fails the affordability gate (success
false); and an EVERLASTING agent choosing REST (gate passed) is not
charged `action_delta + step_cost`: its energy stays 5 although
step_cost = −1 ≠ 0. -/
theorem c5_rest_cex :
    ((((c5WGate.execute_action specEnergyRatios 0 (ActionType.NONE, 0, 0)).getD
        c5WGate).agentAt 0).chosen_action_success = false ∧
      0 < (c5WGate.agentAt 0).energy) ∧
    (¬ ((c5WEv.agentAt 0).energy + (c5WEv.agentAt 0).move_cost * specEnergyRatios
        ActionType.NONE + (c5WEv.agentAt 0).step_cost < 0) ∧
      (((c5WEv.execute_action specEnergyRatios 0 (ActionType.NONE, 0, 0)).getD
        c5WEv).agentAt 0).energy = (c5WEv.agentAt 0).energy ∧
      (c5WEv.agentAt 0).step_cost ≠ 0) := by
  with_unfolding_all decide

/-- C5 (amended): for every non-EVERLASTING agent whose chosen action is
REST (whose `action_delta` is `move_cost * 0 = 0`), the action succeeds if
and only if the affordability gate passes, i.e. `0 ≤ energy + step_cost`
(it is NOT unconditional: a living agent with `energy + step_cost < 0` is
rejected with success = false); in either case the agent is charged
exactly `action_delta + step_cost = step_cost`, subject to the clamp, and
does not move. -/
theorem c5_rest (er : ActionType → ℚ) (W : World) (i : ℕ) (dx dy : ℤ) (W' : World)
    (hlen : i < W.arena.length)
    (hrec : (W.agentAt i).recycling ≠ Recycling.EVERLASTING)
    (her : er ActionType.NONE = 0)
    (hrun : W.execute_action er i (ActionType.NONE, dx, dy) = some W') :
    ((W'.agentAt i).chosen_action_success = true ↔
      0 ≤ (W.agentAt i).energy + (W.agentAt i).step_cost) ∧
    (W'.agentAt i).energy =
      max (min ((W.agentAt i).energy + (W.agentAt i).step_cost) (W.agentAt i).max_energy) 0 ∧
    (W'.agentAt i).position = (W.agentAt i).position ∧
    W'.things = W.things := by
  by_cases hg : (W.agentAt i).energy + (W.agentAt i).move_cost * er ActionType.NONE +
      (W.agentAt i).step_cost < 0
  · have hg' : (W.agentAt i).energy + (W.agentAt i).step_cost < 0 := by
      rwa [her, mul_zero, add_zero] at hg
    have h := c3_gate_rejected er W i ActionType.NONE dx dy W' hlen hrec hg hrun
    exact ⟨by simp [h.1, not_le.mpr hg'], h.2.1, h.2.2.1, h.2.2.2.1⟩
  · have hg' : 0 ≤ (W.agentAt i).energy + (W.agentAt i).step_cost := by
      rw [her, mul_zero, add_zero] at hg
      exact not_lt.mp hg
    rw [execute_action_rest er W i dx dy hg] at hrun
    have hupd := update_energy_eq (W.agentAt i)
      ((W.agentAt i).move_cost * er ActionType.NONE + (W.agentAt i).step_cost) none
      hrec 1 1 (npIdx3_self _) (npIdx3_self _)
    rw [update_agent_energy_eq W i _ none _ _ hupd] at hrun
    simp only [Option.map_some'] at hrun
    obtain rfl : _ = W' := Option.some.inj hrun
    have hlen2 : i < (W.arena.set i
        (updatedAgent (W.agentAt i)
          ((W.agentAt i).move_cost * er ActionType.NONE + (W.agentAt i).step_cost) 1 1)).length := by
      simpa using hlen
    have hA : ({ W with
        arena := W.arena.set i (updatedAgent (W.agentAt i)
          ((W.agentAt i).move_cost * er ActionType.NONE + (W.agentAt i).step_cost) 1 1),
        energy_map := fun q =>
          if q = (updatedAgent (W.agentAt i)
              ((W.agentAt i).move_cost * er ActionType.NONE + (W.agentAt i).step_cost) 1 1).position
          then (updatedAgent (W.agentAt i)
              ((W.agentAt i).move_cost * er ActionType.NONE + (W.agentAt i).step_cost) 1 1).energy
          else W.energy_map q } : World).agentAt i =
        updatedAgent (W.agentAt i)
          ((W.agentAt i).move_cost * er ActionType.NONE + (W.agentAt i).step_cost) 1 1 :=
      getD_set_self _ _ _ hlen
    rw [setSuccess_agentAt_self _ _ _ hlen2, hA]
    have hf := updatedAgent_fields (W.agentAt i)
      ((W.agentAt i).move_cost * er ActionType.NONE + (W.agentAt i).step_cost) 1 1
    refine ⟨by simp [hg'], ?_, hf.1, rfl⟩
    show (updatedAgent (W.agentAt i)
        ((W.agentAt i).move_cost * er ActionType.NONE + (W.agentAt i).step_cost) 1 1).energy = _
    rw [hf.2.2.2.2.2.2.2.2.2, her, mul_zero, zero_add]

/-- C5 witness: the amended REST theorem instantiated on the gated agent
(energy 1, step_cost −2): success is false and the energy clamps to 0. -/
theorem c5_rest_witness :
    ((((c5WGate.execute_action specEnergyRatios 0 (ActionType.NONE, 0, 0)).getD
        c5WGate).agentAt 0).chosen_action_success = true ↔
      0 ≤ (c5WGate.agentAt 0).energy + (c5WGate.agentAt 0).step_cost) ∧
    (((c5WGate.execute_action specEnergyRatios 0 (ActionType.NONE, 0, 0)).getD
        c5WGate).agentAt 0).energy = 0 := by
  have hrun : c5WGate.execute_action specEnergyRatios 0 (ActionType.NONE, 0, 0) =
      some ((c5WGate.execute_action specEnergyRatios 0 (ActionType.NONE, 0, 0)).getD
        c5WGate) := by
    with_unfolding_all rfl
  have h := c5_rest specEnergyRatios c5WGate 0 0 0 _
    (by with_unfolding_all decide) (by with_unfolding_all decide) rfl hrun
  exact ⟨h.1, h.2.1.trans (by with_unfolding_all decide)⟩

/-- C4 counterexample: the claimed "succeeds iff the destination is
in-bounds and empty" fails for MOVE(0,0): the destination is the agent's
own (occupied, hence non-empty) tile and yet place_at reports success;
moreover an EVERLASTING agent that moves is not charged
`action_delta + step_cost` (its energy is unchanged). -/
theorem c4_move_cex :
    ((((c4W0.execute_action specEnergyRatios 0 (ActionType.MOVE, 0, 0)).getD
        c4W0).agentAt 0).chosen_action_success = true ∧
      c4W0.tile_is_empty ((c4W0.agentAt 0).position.1 + 0,
        (c4W0.agentAt 0).position.2 + 0) = false) ∧
    (¬ ((c4WEv.agentAt 0).energy + (c4WEv.agentAt 0).move_cost * specEnergyRatios
        ActionType.MOVE + (c4WEv.agentAt 0).step_cost < 0) ∧
      (((c4WEv.execute_action specEnergyRatios 0 (ActionType.MOVE, 1, 0)).getD
        c4WEv).agentAt 0).chosen_action_success = true ∧
      (((c4WEv.execute_action specEnergyRatios 0 (ActionType.MOVE, 1, 0)).getD
        c4WEv).agentAt 0).energy = (c4WEv.agentAt 0).energy ∧
      (c4WEv.agentAt 0).move_cost * specEnergyRatios ActionType.MOVE +
        (c4WEv.agentAt 0).step_cost ≠ 0) := by
  with_unfolding_all decide

/-- C4 (amended): for every agent executing MOVE(dx,dy) that passes the
affordability gate, with destination `dest = position + (dx,dy)`: the
move succeeds if and only if `dest` is in-bounds and empty OR `dest` is
the agent's own position (the degenerate MOVE(0,0) succeeds trivially);
on success the agent occupies the destination and `action_delta +
step_cost` is applied through the energy economy (clamped into
`[0, max_energy]`; an EVERLASTING agent's energy is unchanged); on
failure the agent's position, the grid and the bitmap are unchanged and
only `step_cost` is applied (action_delta resets to 0). -/
theorem c4_move (er : ActionType → ℚ) (W : World) (i : ℕ) (dx dy : ℤ)
    (dest : Pos) (W' : World)
    (hlen : i < W.arena.length)
    (hdest : dest = ((W.agentAt i).position.1 + dx, (W.agentAt i).position.2 + dy))
    (hgate : ¬ ((W.agentAt i).energy + (W.agentAt i).move_cost * er ActionType.MOVE +
      (W.agentAt i).step_cost < 0))
    (hrun : W.execute_action er i (ActionType.MOVE, dx, dy) = some W') :
    ((W'.agentAt i).chosen_action_success = true ↔
      (W.tile_is_empty dest = true ∨ dest = (W.agentAt i).position)) ∧
    ((W.tile_is_empty dest = true ∨ dest = (W.agentAt i).position) →
      (W'.agentAt i).position = dest ∧
      W'.things dest = some (Occ.agent i) ∧
      (W'.agentAt i).energy = chargeVal (W.agentAt i)
        ((W.agentAt i).move_cost * er ActionType.MOVE + (W.agentAt i).step_cost)) ∧
    (¬ (W.tile_is_empty dest = true ∨ dest = (W.agentAt i).position) →
      (W'.agentAt i).position = (W.agentAt i).position ∧
      W'.things = W.things ∧
      W'.occupation_bitmap = W.occupation_bitmap ∧
      (W'.agentAt i).energy = chargeVal (W.agentAt i) ((0 : ℚ) + (W.agentAt i).step_cost)) := by
  subst hdest
  rw [execute_action_move er W i dx dy hgate] at hrun
  by_cases hs : W.tile_is_empty ((W.agentAt i).position.1 + dx,
      (W.agentAt i).position.2 + dy) = true ∨
      ((W.agentAt i).position.1 + dx, (W.agentAt i).position.2 + dy) =
        (W.agentAt i).position
  · rw [place_at_success W i _ false (0, 0) hs] at hrun
    simp only [if_true] at hrun
    have hR := relocateAgent_parts W i
      ((W.agentAt i).position.1 + dx, (W.agentAt i).position.2 + dy) hlen
    have hlenr : i < (W.relocateAgent i
        ((W.agentAt i).position.1 + dx, (W.agentAt i).position.2 + dy)).arena.length := by
      rw [hR.2.2.2.2.1]; exact hlen
    obtain ⟨W2, u, heq, hthings, hbm, horder, hw, hh, hlen2, hother, hpos2, hE, hu,
        hsucc2, hrest⟩ :=
      charge_any (W.relocateAgent i
          ((W.agentAt i).position.1 + dx, (W.agentAt i).position.2 + dy)) i
        ((W.agentAt i).move_cost * er ActionType.MOVE + (W.agentAt i).step_cost) none
        hlenr (by simp [npIdx3_self, npIdx3_one]) (by simp [npIdx3_self, npIdx3_one])
    rw [heq] at hrun
    simp only [Option.map_some'] at hrun
    obtain rfl : _ = W' := Option.some.inj hrun
    have hlen3 : i < W2.arena.length := by rw [hlen2]; exact hlenr
    have hAi := setSuccess_agentAt_self W2 i true hlen3
    refine ⟨?_, fun _ => ⟨?_, ?_, ?_⟩, fun hns => absurd hs hns⟩
    · rw [hAi]; simp [hs]
    · rw [hAi]
      show (W2.agentAt i).position = _
      rw [hpos2, hR.1]
    · rw [(setSuccess_parts W2 i true).1, hthings]
      exact hR.2.2.1
    · rw [hAi]
      show (W2.agentAt i).energy = _
      rw [hE, hR.1, chargeVal_pos_irrel]
  · rw [place_at_fail W i _ (0, 0) hs] at hrun
    rw [if_neg Bool.false_ne_true] at hrun
    obtain ⟨W2, u, heq, hthings, hbm, horder, hw, hh, hlen2, hother, hpos2, hE, hu,
        hsucc2, hrest⟩ :=
      charge_any W i ((0 : ℚ) + (W.agentAt i).step_cost) none hlen
        (by simp [npIdx3_self, npIdx3_one]) (by simp [npIdx3_self, npIdx3_one])
    rw [heq] at hrun
    simp only [Option.map_some'] at hrun
    obtain rfl : _ = W' := Option.some.inj hrun
    have hlen3 : i < W2.arena.length := by rw [hlen2]; exact hlen
    have hAi := setSuccess_agentAt_self W2 i false hlen3
    refine ⟨?_, fun hs2 => absurd hs2 hs, fun _ => ⟨?_, ?_, ?_, ?_⟩⟩
    · rw [hAi]; simp [hs]
    · rw [hAi]
      show (W2.agentAt i).position = _
      exact hpos2
    · rw [(setSuccess_parts W2 i false).1, hthings]
    · rw [(setSuccess_parts W2 i false).2.2.1, hbm]
    · rw [hAi]
      show (W2.agentAt i).energy = _
      exact hE

/-- C4 witness: the spec's worked example — 3×3 grid, agent at (1,1) with
energy 10/10, step_cost −1, move_cost −2, MOVE(1,0) at ratio 1 into the
empty tile (2,1): success, new position (2,1), energy 7. -/
theorem c4_move_witness :
    ((((c4Wit.execute_action specEnergyRatios 0 (ActionType.MOVE, 1, 0)).getD
        c4Wit).agentAt 0).chosen_action_success = true ↔
      (c4Wit.tile_is_empty (2, 1) = true ∨ (2, 1) = (c4Wit.agentAt 0).position)) ∧
    (((c4Wit.execute_action specEnergyRatios 0 (ActionType.MOVE, 1, 0)).getD
        c4Wit).agentAt 0).position = (2, 1) ∧
    (((c4Wit.execute_action specEnergyRatios 0 (ActionType.MOVE, 1, 0)).getD
        c4Wit).agentAt 0).energy = 7 := by
  have hrun : c4Wit.execute_action specEnergyRatios 0 (ActionType.MOVE, 1, 0) =
      some ((c4Wit.execute_action specEnergyRatios 0 (ActionType.MOVE, 1, 0)).getD
        c4Wit) := by
    with_unfolding_all rfl
  have h := c4_move specEnergyRatios c4Wit 0 1 0 (2, 1) _
    (by with_unfolding_all decide) (by with_unfolding_all decide)
    (by with_unfolding_all decide) hrun
  have hemp : c4Wit.tile_is_empty (2, 1) = true ∨ (2, 1) = (c4Wit.agentAt 0).position := by
    left; with_unfolding_all decide
  refine ⟨h.1, (h.2.1 hemp).1, ((h.2.1 hemp).2.2).trans ?_⟩
  with_unfolding_all decide

/-- C6 counterexample: the claim's "not a living Agent ... fails with
action_delta = 0" is false for a dead EVERLASTING prey.  The EAT target
has energy 0 — not a living Agent — yet things.py `update_energy` reports
the nominal `-bite` for an EVERLASTING prey, so `action_delta = bite = 5
> 0`, the success flag is TRUE and the predator ends at 50 − 1 + 5 = 54,
gaining the full bite from a dead prey that loses nothing. -/
theorem c6_eat_cex :
    (c6WEvDead.agentAt 1).energy = 0 ∧
    ¬ (c6WEvDead.agentAt 1).is_alive ∧
    ∃ W', c6WEvDead.execute_action specEnergyRatios 0 (ActionType.EAT, 1, 0)
        = some W' ∧
      (W'.agentAt 0).chosen_action_success = true ∧
      (W'.agentAt 0).energy = 54 ∧
      (W'.agentAt 1).energy = 0 := by
  refine ⟨by with_unfolding_all decide, by with_unfolding_all decide,
    (c6WEvDead.execute_action specEnergyRatios 0 (ActionType.EAT, 1, 0)).getD
      c6WEvDead,
    by with_unfolding_all rfl, by with_unfolding_all decide,
    by with_unfolding_all decide, by with_unfolding_all decide⟩

/-- C6, amended: for every agent executing EAT(dx,dy) that passes the
gate, if the occupant of the target tile is not an Agent of the world
(empty tile, block, or unregistered reference), or the occupant is a prey
Agent whose attempted bite yields zero REPORTED energy transfer — which
for a non-EVERLASTING prey covers every dead prey, but excludes an
EVERLASTING one, whose reported transfer is the nominal bite — then the
action fails: the success flag is false, beyond `step_cost` the eating
agent's energy is unchanged, the prey (when there is one) keeps its
energy, nothing moves, and the simulation continues (`execute_action`
returns a world, not an error). -/
theorem c6_eat_soft_fail (er : ActionType → ℚ) (her : er ActionType.EAT = 0) :
    (∀ (W : World) (i : ℕ) (dx dy : ℤ) (occ : Option Occ),
      i < W.arena.length →
      ¬ ((W.agentAt i).energy + (W.agentAt i).move_cost * er ActionType.EAT +
        (W.agentAt i).step_cost < 0) →
      W.npRead ((W.agentAt i).position.1 + dx) ((W.agentAt i).position.2 + dy) =
        some occ →
      (∀ j, occ = some (Occ.agent j) → j ∉ W.order) →
      ∃ W', W.execute_action er i (ActionType.EAT, dx, dy) = some W' ∧
        (W'.agentAt i).chosen_action_success = false ∧
        (W'.agentAt i).energy = chargeVal (W.agentAt i) (W.agentAt i).step_cost ∧
        (W'.agentAt i).position = (W.agentAt i).position ∧
        W'.things = W.things) ∧
    (∀ (W : World) (i j : ℕ) (dx dy : ℤ),
      i < W.arena.length → j < W.arena.length → j ≠ i →
      ¬ ((W.agentAt i).energy + (W.agentAt i).move_cost * er ActionType.EAT +
        (W.agentAt i).step_cost < 0) →
      W.npRead ((W.agentAt i).position.1 + dx) ((W.agentAt i).position.2 + dy) =
        some (some (Occ.agent j)) →
      j ∈ W.order →
      usedVal (W.agentAt j)
        (-(min (W.agentAt i).bite_power ((W.agentAt i).max_energy -
          chargeVal (W.agentAt i) (W.agentAt i).step_cost))) = 0 →
      (npIdx3 (1 + (W.agentAt i).position.1 - (W.agentAt j).position.1)).isSome = true →
      (npIdx3 (1 + (W.agentAt i).position.2 - (W.agentAt j).position.2)).isSome = true →
      (npIdx3 (1 + (W.agentAt j).position.1 - (W.agentAt i).position.1)).isSome = true →
      (npIdx3 (1 + (W.agentAt j).position.2 - (W.agentAt i).position.2)).isSome = true →
      ∃ W', W.execute_action er i (ActionType.EAT, dx, dy) = some W' ∧
        (W'.agentAt i).chosen_action_success = false ∧
        (W'.agentAt i).energy = chargeVal (W.agentAt i) (W.agentAt i).step_cost ∧
        (W'.agentAt j).energy = (W.agentAt j).energy ∧
        (W'.agentAt i).position = (W.agentAt i).position ∧
        W'.things = W.things) := by
  constructor
  · intro W i dx dy occ hlen hgate hlook hocc
    obtain ⟨W', hrun, hsucc, hE, hpos, hthings, _⟩ :=
      eat_fail_lookup er W i dx dy occ hlen hgate hlook hocc
    exact ⟨W', hrun, hsucc, hE, hpos, hthings⟩
  · intro W i j dx dy hlen hlenj hji hgate hlook hjord hzero hpj1 hpj2 hpi1s hpi2s
    obtain ⟨gi, hgi⟩ := Option.isSome_iff_exists.mp hpi1s
    obtain ⟨gj, hgj⟩ := Option.isSome_iff_exists.mp hpi2s
    obtain ⟨W', hrun, hpreyE, hpreyPos, hpredPos, hpredE, hsucc, hthings, horder,
        hothers, htouch⟩ :=
      eat_resolved er W i j dx dy hlen hlenj hji hgate hlook hjord
        (chargeVal (W.agentAt i) (W.agentAt i).step_cost)
        (min (W.agentAt i).bite_power ((W.agentAt i).max_energy -
          chargeVal (W.agentAt i) (W.agentAt i).step_cost))
        0
        ((W.agentAt i).move_cost * er ActionType.EAT + -0)
        rfl rfl hzero.symm rfl gi gj hpj1 hpj2 hgi hgj
    have had0 : (W.agentAt i).move_cost * er ActionType.EAT + -(0 : ℚ) = 0 := by
      rw [her]; ring
    refine ⟨W', hrun, ?_, ?_, ?_, hpredPos, hthings⟩
    · rw [hsucc, had0]
      simp
    · rw [hpredE]
      by_cases hEV : (W.agentAt i).recycling = Recycling.EVERLASTING
      · rw [if_pos hEV]
        unfold chargeVal
        rw [if_pos hEV]
      · rw [if_neg hEV, had0]
        unfold chargeVal
        rw [if_neg hEV]
        exact clamp_idem ((W.agentAt i).energy + (W.agentAt i).step_cost)
          (W.agentAt i).max_energy
    · rw [hpreyE]
      exact chargeVal_of_used_zero _ _ hzero

/-- C6 witness: the failing-EAT theorem applied twice — at a block
occupant (2×1 world, EAT into the block tile) and at a dead prey (energy
0, zero transferable energy); both fail with only `step_cost` charged. -/
theorem c6_eat_soft_fail_witness :
    (∃ W', c6WBlock.execute_action specEnergyRatios 0 (ActionType.EAT, 1, 0) = some W' ∧
      (W'.agentAt 0).chosen_action_success = false ∧
      (W'.agentAt 0).energy = chargeVal (c6WBlock.agentAt 0) (c6WBlock.agentAt 0).step_cost ∧
      (W'.agentAt 0).position = (c6WBlock.agentAt 0).position ∧
      W'.things = c6WBlock.things) ∧
    (∃ W', c6WDead.execute_action specEnergyRatios 0 (ActionType.EAT, 1, 0) = some W' ∧
      (W'.agentAt 0).chosen_action_success = false ∧
      (W'.agentAt 0).energy = chargeVal (c6WDead.agentAt 0) (c6WDead.agentAt 0).step_cost ∧
      (W'.agentAt 1).energy = (c6WDead.agentAt 1).energy ∧
      (W'.agentAt 0).position = (c6WDead.agentAt 0).position ∧
      W'.things = c6WDead.things) := by
  constructor
  · exact (c6_eat_soft_fail specEnergyRatios rfl).1 c6WBlock 0 1 0 (some (Occ.block 0))
      (by with_unfolding_all decide) (by with_unfolding_all decide)
      (by with_unfolding_all rfl)
      (by intro j h; simp at h)
  · exact (c6_eat_soft_fail specEnergyRatios rfl).2 c6WDead 0 1 1 0
      (by with_unfolding_all decide) (by with_unfolding_all decide)
      (by with_unfolding_all decide) (by with_unfolding_all decide)
      (by with_unfolding_all rfl) (by with_unfolding_all decide)
      (by with_unfolding_all decide) (by with_unfolding_all decide)
      (by with_unfolding_all decide) (by with_unfolding_all decide)
      (by with_unfolding_all decide)

/-- C2 counterexample: for an EVERLASTING prey the claim's "the predator's
gain is the prey's actual loss magnitude" fails — `update_energy` reports
the nominal `-bite` for an EVERLASTING prey, so the predator (50/100,
bite 5, step −1, so 49 after the step charge) gains the full 5 and ends at
54, while the prey's actual loss is 0 (it keeps its 3). -/
theorem c2_eat_cex :
    (c2WEv.agentAt 1).recycling = Recycling.EVERLASTING ∧
    0 < (c2WEv.agentAt 1).energy ∧
    (((c2WEv.execute_action specEnergyRatios 0 (ActionType.EAT, 1, 0)).getD
        c2WEv).agentAt 1).energy = (c2WEv.agentAt 1).energy ∧
    (((c2WEv.execute_action specEnergyRatios 0 (ActionType.EAT, 1, 0)).getD
        c2WEv).agentAt 0).energy = 54 ∧
    ((54 : ℚ) = 49 + 0 → False) := by
  with_unfolding_all decide

/-- C2 (amended): for every agent executing EAT(dx,dy) that passes the
affordability gate and whose target tile holds a living
**non-EVERLASTING** prey Agent: with `e1` the predator's energy after the
unconditional step charge, the bite is `min(bite_power, max_energy - e1)`
(non-negative under the spec's sign conventions); the prey loses at most
its available energy, clamped to zero by its own clamp rule, yielding a
non-positive `taken` of magnitude at most the prey's energy; and the
predator's gain is the prey's actual loss magnitude `-taken`, applied via
the energy economy with source_position = the prey's position, so for a
non-EVERLASTING predator the gain lands in the positive touch-map cell
addressed by the prey's direction.  Success is `0 < -taken`. -/
theorem c2_eat_success (er : ActionType → ℚ) (W : World) (i j : ℕ) (dx dy : ℤ)
    (e1 bite taken : ℚ) (gi gj : Fin 3)
    (her : er ActionType.EAT = 0)
    (hlen : i < W.arena.length) (hlenj : j < W.arena.length) (hji : j ≠ i)
    (hgate : ¬ ((W.agentAt i).energy + (W.agentAt i).move_cost * er ActionType.EAT +
      (W.agentAt i).step_cost < 0))
    (hlook : W.npRead ((W.agentAt i).position.1 + dx) ((W.agentAt i).position.2 + dy) =
      some (some (Occ.agent j)))
    (hjord : j ∈ W.order)
    (halive : 0 < (W.agentAt j).energy)
    (hpreyrec : (W.agentAt j).recycling ≠ Recycling.EVERLASTING)
    (hpM : (W.agentAt j).energy ≤ (W.agentAt j).max_energy)
    (hbp : 0 ≤ (W.agentAt i).bite_power)
    (hae : 0 ≤ (W.agentAt i).energy)
    (haM : (W.agentAt i).energy ≤ (W.agentAt i).max_energy)
    (hsc : (W.agentAt i).step_cost ≤ 0)
    (he1 : e1 = chargeVal (W.agentAt i) (W.agentAt i).step_cost)
    (hbite : bite = min (W.agentAt i).bite_power ((W.agentAt i).max_energy - e1))
    (htaken : taken = usedVal (W.agentAt j) (-bite))
    (hpj1 : (npIdx3 (1 + (W.agentAt i).position.1 -
      (W.agentAt j).position.1)).isSome = true)
    (hpj2 : (npIdx3 (1 + (W.agentAt i).position.2 -
      (W.agentAt j).position.2)).isSome = true)
    (hpi1 : npIdx3 (1 + (W.agentAt j).position.1 - (W.agentAt i).position.1) = some gi)
    (hpi2 : npIdx3 (1 + (W.agentAt j).position.2 - (W.agentAt i).position.2) = some gj) :
    ∃ W', W.execute_action er i (ActionType.EAT, dx, dy) = some W' ∧
      0 ≤ bite ∧
      (W'.agentAt j).energy = max ((W.agentAt j).energy - bite) 0 ∧
      taken ≤ 0 ∧
      -(W.agentAt j).energy ≤ taken ∧
      (W'.agentAt j).energy = (W.agentAt j).energy + taken ∧
      (W'.agentAt i).energy =
        (if (W.agentAt i).recycling = Recycling.EVERLASTING then (W.agentAt i).energy
         else max (min (e1 + -taken) (W.agentAt i).max_energy) 0) ∧
      (W'.agentAt i).chosen_action_success = decide (0 < -taken) ∧
      ((W.agentAt i).recycling ≠ Recycling.EVERLASTING →
        (W'.agentAt i).positive_touch_map =
          tmBump (W.agentAt i).positive_touch_map gi gj
            (max (min (e1 + -taken) (W.agentAt i).max_energy) 0 - e1)) := by
  have he1M : e1 ≤ (W.agentAt i).max_energy := by
    rw [he1]
    unfold chargeVal
    by_cases hEV : (W.agentAt i).recycling = Recycling.EVERLASTING
    · rw [if_pos hEV]; exact haM
    · rw [if_neg hEV]
      exact max_le (min_le_right _ _) (le_trans hae haM)
  have hbite0 : 0 ≤ bite := by
    rw [hbite]
    exact le_min hbp (by linarith)
  have hminp : (W.agentAt j).energy - bite ≤ (W.agentAt j).max_energy := by linarith
  have htaken' : taken = max ((W.agentAt j).energy - bite) 0 - (W.agentAt j).energy := by
    rw [htaken]
    unfold usedVal
    rw [if_neg hpreyrec, ← sub_eq_add_neg, min_eq_left hminp]
  have hchargeprey : chargeVal (W.agentAt j) (-bite) =
      max ((W.agentAt j).energy - bite) 0 := by
    unfold chargeVal
    rw [if_neg hpreyrec, ← sub_eq_add_neg, min_eq_left hminp]
  obtain ⟨W', hrun, hpreyE, hpreyPos, hpredPos, hpredE, hsucc, hthings, horder,
      hothers, htouch⟩ :=
    eat_resolved er W i j dx dy hlen hlenj hji hgate hlook hjord e1 bite taken (-taken)
      he1 hbite htaken (by rw [her]; ring) gi gj hpj1 hpj2 hpi1 hpi2
  have hmax0 : max ((W.agentAt j).energy - bite) 0 ≤ (W.agentAt j).energy :=
    max_le (by linarith) (le_of_lt halive)
  refine ⟨W', hrun, hbite0, ?_, ?_, ?_, ?_, hpredE, hsucc, ?_⟩
  · rw [hpreyE, hchargeprey]
  · rw [htaken']
    linarith
  · rw [htaken']
    have h0 : (0 : ℚ) ≤ max ((W.agentAt j).energy - bite) 0 := le_max_right _ _
    linarith
  · rw [hpreyE, hchargeprey, htaken']
    ring
  · intro hnEV
    apply htouch hnEV hsc hae
    have htk0 : taken ≤ 0 := by rw [htaken']; linarith
    have hidem : max (min (e1 + 0) (W.agentAt i).max_energy) 0 = e1 := by
      rw [he1]
      unfold chargeVal
      rw [if_neg hnEV]
      exact clamp_idem ((W.agentAt i).energy + (W.agentAt i).step_cost)
        (W.agentAt i).max_energy
    have hmono : max (min (e1 + 0) (W.agentAt i).max_energy) 0 ≤
        max (min (e1 + -taken) (W.agentAt i).max_energy) 0 :=
      max_le_max (min_le_min (by linarith) (le_refl _)) (le_refl _)
    rw [hidem] at hmono
    linarith

/-- C2 witness: the spec's worked example — predator 50/100, bite 5,
step −1 (so 49 after the step charge), adjacent prey with energy 3:
`taken = -3`, the prey drops to 0 (dead), the predator ends at
`50 + 3 - 1 = 52`, success = true. -/
theorem c2_eat_success_witness :
    ∃ W', c2Wit.execute_action specEnergyRatios 0 (ActionType.EAT, 1, 0) = some W' ∧
      (W'.agentAt 1).energy = 0 ∧
      (W'.agentAt 0).energy = 52 ∧
      (W'.agentAt 0).chosen_action_success = true := by
  obtain ⟨W', hrun, hb0, hpreyE, htk1, htk2, hloss, hpredE, hsucc, htouch⟩ :=
    c2_eat_success specEnergyRatios c2Wit 0 1 1 0 49 5 (-3) 2 1 rfl
      (by with_unfolding_all decide) (by with_unfolding_all decide)
      (by with_unfolding_all decide) (by with_unfolding_all decide)
      (by with_unfolding_all rfl) (by with_unfolding_all decide)
      (by with_unfolding_all decide) (by with_unfolding_all decide)
      (by with_unfolding_all decide) (by with_unfolding_all decide)
      (by with_unfolding_all decide) (by with_unfolding_all decide)
      (by with_unfolding_all decide) (by with_unfolding_all decide)
      (by with_unfolding_all decide) (by with_unfolding_all decide)
      (by with_unfolding_all decide) (by with_unfolding_all decide)
      (by with_unfolding_all decide) (by with_unfolding_all decide)
  refine ⟨W', hrun, ?_, ?_, ?_⟩
  · rw [hpreyE]
    with_unfolding_all decide
  · rw [hpredE]
    with_unfolding_all decide
  · rw [hsucc]
    with_unfolding_all decide

/-- C10: the EAT target lookup performs no bounds check of its own.
(a) An x-target of −1 (an agent on the x = 0 edge biting off-grid) wraps
to the opposite edge `width - 1`; (b) symmetrically for y = 0;
(c) on a width-2 grid such a wrapped EAT really bites the opposite-edge
prey (the action completes and the prey loses energy); (d) a target
coordinate ≥ width (or ≥ height) makes the numpy lookup raise — the tick
aborts (`execute_action` = none) instead of reporting a soft failure. -/
theorem c10_eat_wraparound (er : ActionType → ℚ) :
    (∀ (W : World) (y y' : ℤ), 0 < W.width → npIdxN W.height y = some y' →
      W.npRead (-1) y = some (W.things ((W.width : ℤ) - 1, y'))) ∧
    (∀ (W : World) (x x' : ℤ), 0 < W.height → npIdxN W.width x = some x' →
      W.npRead x (-1) = some (W.things (x', (W.height : ℤ) - 1))) ∧
    (∀ (W : World) (i j : ℕ) (bite : ℚ),
      i < W.arena.length → j < W.arena.length → j ≠ i →
      W.width = 2 →
      (W.agentAt i).position.1 = 0 →
      (W.agentAt j).position = (1, (W.agentAt i).position.2) →
      0 ≤ (W.agentAt i).position.2 → (W.agentAt i).position.2 < (W.height : ℤ) →
      ¬ ((W.agentAt i).energy + (W.agentAt i).move_cost * er ActionType.EAT +
        (W.agentAt i).step_cost < 0) →
      W.things (1, (W.agentAt i).position.2) = some (Occ.agent j) →
      j ∈ W.order →
      0 < (W.agentAt j).energy →
      (W.agentAt j).recycling ≠ Recycling.EVERLASTING →
      (W.agentAt j).energy ≤ (W.agentAt j).max_energy →
      bite = min (W.agentAt i).bite_power ((W.agentAt i).max_energy -
        chargeVal (W.agentAt i) (W.agentAt i).step_cost) →
      0 < bite →
      ∃ W', W.execute_action er i (ActionType.EAT, -1, 0) = some W' ∧
        (W'.agentAt j).energy < (W.agentAt j).energy) ∧
    (∀ (W : World) (i : ℕ) (dx dy : ℤ),
      i < W.arena.length →
      ¬ ((W.agentAt i).energy + (W.agentAt i).move_cost * er ActionType.EAT +
        (W.agentAt i).step_cost < 0) →
      ((W.width : ℤ) ≤ (W.agentAt i).position.1 + dx ∨
        (W.height : ℤ) ≤ (W.agentAt i).position.2 + dy) →
      W.execute_action er i (ActionType.EAT, dx, dy) = none) := by
  refine ⟨?_, ?_, ?_, ?_⟩
  · intro W y y' hw hy
    unfold World.npRead
    have hx : npIdxN W.width (-1) = some ((W.width : ℤ) - 1) := by
      unfold npIdxN
      rw [if_neg (by omega), if_pos (by omega)]
      congr 1
    rw [hx, hy]
  · intro W x x' hh hx
    unfold World.npRead
    have hy : npIdxN W.height (-1) = some ((W.height : ℤ) - 1) := by
      unfold npIdxN
      rw [if_neg (by omega), if_pos (by omega)]
      congr 1
    rw [hx, hy]
  · intro W i j bite hlen hlenj hji hw2 hx0 hjpos hy0 hyh hgate hthings hjord halive
      hprec hpM hbite hbite0
    have h1 : (W.agentAt j).position.1 = 1 := by rw [hjpos]
    have h2 : (W.agentAt j).position.2 = (W.agentAt i).position.2 := by rw [hjpos]
    have hlook : W.npRead ((W.agentAt i).position.1 + -1)
        ((W.agentAt i).position.2 + 0) = some (some (Occ.agent j)) := by
      rw [hx0, add_zero]
      unfold World.npRead
      have hxn : npIdxN W.width ((0 : ℤ) + -1) = some 1 := by
        unfold npIdxN
        rw [if_neg (by omega), if_pos (by omega)]
        congr 1
        omega
      have hyn : npIdxN W.height (W.agentAt i).position.2 =
          some (W.agentAt i).position.2 := by
        unfold npIdxN
        rw [if_pos (by omega)]
      rw [hxn, hyn]
      exact congrArg some hthings
    obtain ⟨W', hrun, hpreyE, hpreyPos, hpredPos, hpredE, hsucc, hthingsW, horderW,
        hothers, htouch⟩ :=
      eat_resolved er W i j (-1) 0 hlen hlenj hji hgate hlook hjord
        (chargeVal (W.agentAt i) (W.agentAt i).step_cost) bite
        (usedVal (W.agentAt j) (-bite))
        ((W.agentAt i).move_cost * er ActionType.EAT +
          -usedVal (W.agentAt j) (-bite))
        rfl hbite rfl rfl 2 1
        (by rw [h1, hx0]; decide)
        (by rw [h2, npIdx3_self]; rfl)
        (by rw [h1, hx0]; decide)
        (by rw [h2]; exact npIdx3_self _)
    refine ⟨W', hrun, ?_⟩
    rw [hpreyE]
    unfold chargeVal
    rw [if_neg hprec, ← sub_eq_add_neg,
      min_eq_left (by linarith : (W.agentAt j).energy - bite ≤ (W.agentAt j).max_energy)]
    exact max_lt (by linarith) halive
  · intro W i dx dy hlen hgate hout
    obtain ⟨W1, u1, heq1, hthings1, hbm1, horder1, hw1, hh1, hlen1, hother1, hpos1,
        hE1, hu1, hsucc1, hrec1, hmax1, hbp1, hsc1, hmc1, htch1, hevtch1⟩ :=
      charge_any W i (W.agentAt i).step_cost none hlen
        (by simp [npIdx3_self, npIdx3_one]) (by simp [npIdx3_self, npIdx3_one])
    rw [execute_action_eat er W i dx dy hgate, heq1]
    simp only [Option.some_bind]
    rw [hpos1, npRead_congr W1 W hthings1 hw1 hh1]
    have hnone : W.npRead ((W.agentAt i).position.1 + dx)
        ((W.agentAt i).position.2 + dy) = none := by
      unfold World.npRead
      rcases hout with h | h
      · have hxn : npIdxN W.width ((W.agentAt i).position.1 + dx) = none := by
          unfold npIdxN
          rw [if_neg (by omega), if_neg (by omega)]
        rw [hxn]
      · have hyn : npIdxN W.height ((W.agentAt i).position.2 + dy) = none := by
          unfold npIdxN
          rw [if_neg (by omega), if_neg (by omega)]
        rw [hyn]
        cases npIdxN W.width ((W.agentAt i).position.1 + dx) <;> rfl
    rw [hnone]
    rfl

/-- C10 witness: on the concrete 2×1 world, (a) the lookup from x = 0
with offset −1 addresses the opposite-edge tile (1,0); (c) the predator
at (0,0) really bites the prey at (1,0) across the border (prey 3 → 0);
(d) EAT(1,0) issued from (1,0) targets x = 2 ≥ width and aborts. -/
theorem c10_eat_wraparound_witness :
    c10W.npRead (-1) 0 = some (c10W.things ((c10W.width : ℤ) - 1, 0)) ∧
    (∃ W', c10W.execute_action specEnergyRatios 0 (ActionType.EAT, -1, 0) = some W' ∧
      (W'.agentAt 1).energy < (c10W.agentAt 1).energy) ∧
    c10W.execute_action specEnergyRatios 1 (ActionType.EAT, 1, 0) = none := by
  refine ⟨?_, ?_, ?_⟩
  · exact (c10_eat_wraparound specEnergyRatios).1 c10W 0 0
      (by with_unfolding_all decide) (by with_unfolding_all decide)
  · exact (c10_eat_wraparound specEnergyRatios).2.2.1 c10W 0 1 5
      (by with_unfolding_all decide) (by with_unfolding_all decide)
      (by with_unfolding_all decide) (by with_unfolding_all decide)
      (by with_unfolding_all decide) (by with_unfolding_all decide)
      (by with_unfolding_all decide) (by with_unfolding_all decide)
      (by with_unfolding_all decide) (by with_unfolding_all rfl)
      (by with_unfolding_all decide) (by with_unfolding_all decide)
      (by with_unfolding_all decide) (by with_unfolding_all decide)
      (by with_unfolding_all decide) (by with_unfolding_all decide)
  · exact (c10_eat_wraparound specEnergyRatios).2.2.2 c10W 1 1 0
      (by with_unfolding_all decide) (by with_unfolding_all decide)
      (Or.inl (by with_unfolding_all decide))

/-- C9: `find_free_tile` terminates within the width·height probe budget
(the scan is embedded with exactly that fuel, and failure of the fueled
scan coincides with a fully occupied grid): any tile it returns is empty,
and it returns failure if and only if every tile of the grid is occupied
— equivalently, it succeeds with an empty tile whenever at least one tile
is empty. -/
theorem c9_find_free_tile (W : World) (draw : ℕ × ℕ)
    (hw : 0 < W.width) (hh : 0 < W.height) :
    (∀ p, W.find_free_tile draw = some p → W.tile_is_empty p = true) ∧
    (W.find_free_tile draw = none ↔
      ∀ x y : ℕ, x < W.width → y < W.height →
        W.things ((x : ℤ), (y : ℤ)) ≠ none) := by
  have hs1 : draw.1 % W.width < W.width := Nat.mod_lt _ hw
  have hs2 : draw.2 % W.height < W.height := Nat.mod_lt _ hh
  simp only [World.find_free_tile]
  by_cases hs : W.tile_is_empty (((draw.1 % W.width : ℕ) : ℤ),
      ((draw.2 % W.height : ℕ) : ℤ)) = true
  · rw [if_pos hs]
    constructor
    · intro p hp
      obtain rfl := Option.some.inj hp
      exact hs
    · constructor
      · intro h
        exact absurd h (Option.some_ne_none _)
      · intro hall
        exfalso
        apply hall (draw.1 % W.width) (draw.2 % W.height) hs1 hs2
        unfold World.tile_is_empty at hs
        split at hs
        · exact Option.isNone_iff_eq_none.mp hs
        · cases hs
  · rw [if_neg hs]
    constructor
    · intro p hp
      exact scanFree_some_empty W _ _ _ _ hp
    · constructor
      · intro hnone
        exact find_free_none_occupied W
          (draw.1 % W.width, draw.2 % W.height) hw hh hs1 hs2 hs hnone
      · intro hall
        apply scanFree_none_of_full W _ ?_
        intro p
        unfold World.tile_is_empty
        split
        · rename_i hib
          obtain ⟨h1, h2, h3, h4⟩ := hib
          have hxy := hall p.1.toNat p.2.toNat (by omega) (by omega)
          rw [show ((p.1.toNat : ℤ), (p.2.toNat : ℤ)) = p from ?_] at hxy
          · cases hc : W.things p
            · exact absurd hc hxy
            · rfl
          · rw [Prod.ext_iff]
            exact ⟨Int.toNat_of_nonneg h1, Int.toNat_of_nonneg h3⟩
        · rfl

/-- Witness for C9: on the fully occupied 2×2 world `c9Full` the scan
returns failure rather than looping. -/
theorem c9_find_free_tile_witness : c9Full.find_free_tile (0, 0) = none :=
  (c9_find_free_tile c9Full (0, 0) (by decide) (by decide)).2.mpr
    (by
      intro x y hx hy
      have hx2 : x < 2 := hx
      have hy2 : y < 2 := hy
      interval_cases x <;> interval_cases y <;> with_unfolding_all decide)

/-- C1: for every well-formed world (its energy map mirroring its agents'
energies), after every completed call of `World.step` the sum of the
grid's energy map over all tiles equals the sum of energy over the
world's agent list — exactly, hence within any floating tolerance — so
the end-of-tick energy assertion of `post_step` never fires; moreover
well-formedness itself is preserved. -/
theorem c1_energy_conservation (er : ActionType → ℚ)
    (policy : ℕ → World → Act) (rnd : ℕ → ℕ × ℕ) (W Wr : World)
    (hW : Wf W) (h : W.step er policy rnd = some Wr) :
    gridTotal Wr = agentTotal Wr ∧ Wf Wr := by
  simp only [World.step] at h
  obtain ⟨W1, h1, h2⟩ := Option.bind_eq_some.mp h
  obtain ⟨hW0, hsh0⟩ := Wf_pre_step W hW
  obtain ⟨hW1, hsh1⟩ := Wf_actPhase er policy W.pre_step.order W.pre_step W1
    (fun j hj => (hW0.order_iff j).mp hj) hW0 h1
  have hWr : Wf Wr := Wf_post_step rnd W1 Wr hW1 h2
  exact ⟨Wf.sum_eq hWr, hWr⟩

/-- Witness for C1: the concrete 1×1 world `c1W` completes a step and the
resulting world's grid total equals its agent total. -/
theorem c1_energy_conservation_witness :
    gridTotal c1Wr = agentTotal c1Wr ∧ Wf c1Wr :=
  c1_energy_conservation specEnergyRatios c1Policy c1Rnd c1W c1Wr Wf_c1W
    (by with_unfolding_all rfl)

-- MARKER-THEOREMS-END


end LGL
